import Mathlib

/-!
# Device service with Prometheus instrumentation (`src/main.go`)

A shallow embedding of the HTTP handlers of `main.go`.

* The package-level slice `devices` and the metrics behind the pointer
  `m *deviceMetrics` form the `State` that every handler takes and returns.
* The `http.ResponseWriter` is passed explicitly (`ResponseWriter`): header map,
  written status and body.
* A call of a handler ends in an `Outcome`: it returned, or a panic unwound it;
  in both cases the globals and the writer are as the call left them. The panic
  sites are `rand.Intn` inside `sleep` and the `With` of a metric vector, which
  panics on a label value that is not valid UTF-8.
* `r.URL.Path` is a Go string, a sequence of bytes (`Bytes`): the decoded path
  of `PUT /devices/%ff` is `/devices/` followed by the byte `0xff`. The method is
  text: the server refuses a request whose method is not an ASCII token before
  any handler runs.
* The standard-library calls `json.NewDecoder(..).Decode` and `json.Marshal`
  are parameters (`Lib`); `strconv.Atoi`, `strings.TrimPrefix`, `utf8.Valid`,
  `http.Error`, `http.NotFound` and the header canonicalisation of
  `net/textproto` are modelled for a 64-bit `int`.
* Observed durations are wall-clock floats; an observation is recorded by its
  label set only.
-/

namespace Main

/-! ## Data model -/

/-- A Go string as the bytes it holds. -/
abbrev Bytes := List UInt8

/-- The bytes of a text: its UTF-8 encoding, as Go stores a string literal. -/
def bytes (s : String) : Bytes := s.data.flatMap String.utf8EncodeChar

/-- Go: `type Device struct { ID int; Mac string; Firmware string }`. -/
structure Device where
  ID : Int
  Mac : String
  Firmware : String
  deriving DecidableEq, Repr

/-- Label set of one observation of the `status, method, path` vectors. -/
structure Labels where
  status : String
  method : String
  path : Bytes
  deriving DecidableEq, Repr

/-- Go: `type deviceMetrics struct`. `devices` is the gauge `device_count`
(its value is `float64(len(devices))`, kept as the natural number it converts),
`info` the gauge vector `version_info`, `upgrades` the counter vector
`device_upgrades_total` by its `type` label, `duration` and `durationSumy` the
observations of the histogram and of the summary, in the order they were made. -/
structure deviceMetrics where
  devices : Nat
  info : List (String × Nat)
  upgrades : String → Nat
  duration : List Labels
  durationSumy : List Labels

/-- The process state the handlers share: the global `devices` slice and the
registered metrics. -/
structure State where
  devices : List Device
  metrics : deviceMetrics

/-- The part of `*http.Request` the handlers read; `Path` is `r.URL.Path`. -/
structure Request where
  Method : String
  Path : Bytes
  Body : String
  deriving DecidableEq, Repr

/-- State of an `http.ResponseWriter`: the handler's header map, whether the
status line was written, the status and the body written so far. -/
structure ResponseWriter where
  header : List (String × String)
  wroteHeader : Bool
  status : Nat
  body : String
  deriving DecidableEq, Repr

/-- How a call of a handler ends: `ServeHTTP` returned, or a panic unwound it.
Either way the state and the writer are as the call left them. -/
inductive Outcome where
  | returned (s : State) (w : ResponseWriter)
  | panicked (s : State) (w : ResponseWriter)

/-- The process state a call left behind. -/
def Outcome.state : Outcome → State
  | .returned s _ => s
  | .panicked s _ => s

/-- The writer a call left behind. -/
def Outcome.writer : Outcome → ResponseWriter
  | .returned _ w => w
  | .panicked _ w => w

/-- Whether the call returned. -/
def Outcome.returns : Outcome → Bool
  | .returned _ _ => true
  | .panicked _ _ => false

/-- What one request reads from the clock and the random source: the value of
`now.Second()` inside `sleep` and the raw draw `rand.Intn` reduces. -/
structure Env where
  sec : Fin 60
  draw : Nat

/-- The two `encoding/json` entry points the handlers call. `decode body` is
`json.NewDecoder(r.Body).Decode(&device)` started from the zero `Device`;
`marshal` is `json.Marshal(devices)`. An error carries `err.Error()`. -/
structure Lib where
  decode : String → Except String Device
  marshal : List Device → Except String String

/-! ## Machine integers -/

/-- Largest `int` (64-bit targets). -/
def maxInt : Int := 2 ^ 63 - 1

/-- Smallest `int`. -/
def minInt : Int := -(2 ^ 63)

/-- Two's-complement wrap-around of a mathematical integer into `int`: a value
in range is itself, any other is reduced modulo `2 ^ 64` into the range. -/
def wrapInt (x : Int) : Int :=
  if minInt ≤ x ∧ x ≤ maxInt then x else (x + 2 ^ 63) % 2 ^ 64 - 2 ^ 63

/-! ## Standard-library models -/

/-- Go: the scan of `utf8.Valid`, byte by byte: `need` continuation bytes of the
current encoding are still due, and the next one must lie in `lo .. hi`. The ranges
are those of Go's table: a first byte `C2..DF` opens a two-byte encoding, `E0..EF`
a three-byte one (second byte `A0..BF` after `E0`, `80..9F` after `ED`), `F0..F4` a
four-byte one (second byte `90..BF` after `F0`, `80..8F` after `F4`); `80..C1` and
`F5..FF` open nothing. -/
def utf8Scan : Nat → Nat → Nat → Bytes → Bool
  | need, _, _, [] => need = 0
  | need, lo, hi, b :: rest =>
    if need = 0 then
      if b.toNat < 0x80 then utf8Scan 0 0x80 0xBF rest
      else if 0xC2 ≤ b.toNat ∧ b.toNat ≤ 0xDF then utf8Scan 1 0x80 0xBF rest
      else if b.toNat = 0xE0 then utf8Scan 2 0xA0 0xBF rest
      else if b.toNat = 0xED then utf8Scan 2 0x80 0x9F rest
      else if 0xE1 ≤ b.toNat ∧ b.toNat ≤ 0xEF then utf8Scan 2 0x80 0xBF rest
      else if b.toNat = 0xF0 then utf8Scan 3 0x90 0xBF rest
      else if b.toNat = 0xF4 then utf8Scan 3 0x80 0x8F rest
      else if 0xF1 ≤ b.toNat ∧ b.toNat ≤ 0xF3 then utf8Scan 3 0x80 0xBF rest
      else false
    else if lo ≤ b.toNat ∧ b.toNat ≤ hi then utf8Scan (need - 1) 0x80 0xBF rest
    else false

/-- Go: `utf8.Valid` (`utf8.ValidString`): the bytes are a sequence of well-formed
UTF-8 encodings, none overlong, none of a surrogate, none above `U+10FFFF`. -/
def utf8Valid (s : Bytes) : Bool := utf8Scan 0 0x80 0xBF s

/-- The rest of `s` after the leading `pre`, when `s` starts with `pre`. -/
def stripPrefixBytes : Bytes → Bytes → Option Bytes
  | s, [] => some s
  | [], _ :: _ => none
  | c :: s, p :: ps => if c = p then stripPrefixBytes s ps else none

/-- Go: `strings.TrimPrefix`: `s` without the leading `pre`, or `s` itself when
`s` does not start with `pre`. -/
def TrimPrefix (s pre : Bytes) : Bytes :=
  match stripPrefixBytes s pre with
  | some rest => rest
  | none => s

/-- Value of a run of decimal digits, most significant first. -/
def digitsValue (ds : Bytes) : Nat :=
  ds.foldl (fun acc c => acc * 10 + (c.toNat - 48)) 0

/-- The bytes `'0' .. '9'`. -/
def isDigitByte (b : UInt8) : Bool := 48 ≤ b.toNat && b.toNat ≤ 57

/-- Go: `strconv.Atoi`: an optional sign followed by at least one decimal digit
and nothing else, within the range of `int`; `none` is the error result. -/
def Atoi (s : Bytes) : Option Int :=
  let parse (neg : Bool) (ds : Bytes) : Option Int :=
    if ds.isEmpty then none
    else if ds.all isDigitByte then
      let v : Int := if neg then -(digitsValue ds : Int) else (digitsValue ds : Int)
      if minInt ≤ v ∧ v ≤ maxInt then some v else none
    else none
  match s with
  | [] => none
  | b :: ds =>
    if b = 45 then parse true ds
    else if b = 43 then parse false ds
    else parse false (b :: ds)

/-- Go: `validHeaderFieldByte` of `net/textproto`: the token characters of
RFC 7230. -/
def validHeaderFieldByte (c : Char) : Bool :=
  c.isAlphanum ||
    [33, 35, 36, 37, 38, 39, 42, 43, 45, 46, 94, 95, 96, 124, 126].contains c.toNat

/-- The canonicalising loop of `textproto.canonicalMIMEHeaderKey`: upper case
at the start and after each dash, lower case elsewhere. -/
def canonLoop : Bool → List Char → List Char
  | _, [] => []
  | upper, c :: cs =>
    let c1 := if upper && c.isLower then c.toUpper
      else if !upper && c.isUpper then c.toLower else c
    c1 :: canonLoop (c1 = '-') cs

/-- Go: `textproto.CanonicalMIMEHeaderKey`: a key with a byte that is not a
token character (a space, for one) is returned unchanged. -/
def CanonicalMIMEHeaderKey (s : String) : String :=
  if s.data.all validHeaderFieldByte then String.mk (canonLoop true s.data) else s

/-- Lookup in the header map under an already canonical key. -/
def headerLookup : List (String × String) → String → Option String
  | [], _ => none
  | (k, v) :: h, key => if k = key then some v else headerLookup h key

/-- Go: `Header.Get`: first value under the canonical key, `""` when absent. -/
def headerGet (h : List (String × String)) (key : String) : String :=
  (headerLookup h (CanonicalMIMEHeaderKey key)).getD ""

/-- Go: `Header.Del`. -/
def headerDel (h : List (String × String)) (key : String) : List (String × String) :=
  h.filter (fun kv => kv.1 ≠ CanonicalMIMEHeaderKey key)

/-- Go: `Header.Set`: replaces whatever is stored under the canonical key. -/
def headerSet (h : List (String × String)) (key value : String) : List (String × String) :=
  h.filter (fun kv => kv.1 ≠ CanonicalMIMEHeaderKey key) ++ [(CanonicalMIMEHeaderKey key, value)]

/-- A writer as the server hands it to a handler: nothing set, nothing written. -/
def newResponseWriter : ResponseWriter := ⟨[], false, 0, ""⟩

/-- Go: `w.Header().Set(key, value)`. -/
def ResponseWriter.SetHeader (w : ResponseWriter) (key value : String) : ResponseWriter :=
  { w with header := headerSet w.header key value }

/-- Go: `w.Header().Del(key)`. -/
def ResponseWriter.DelHeader (w : ResponseWriter) (key : String) : ResponseWriter :=
  { w with header := headerDel w.header key }

/-- Go: `w.WriteHeader(code)`: the first call fixes the status, later calls are
ignored. -/
def ResponseWriter.WriteHeader (w : ResponseWriter) (code : Nat) : ResponseWriter :=
  if w.wroteHeader then w else { w with wroteHeader := true, status := code }

/-- Go: `w.Write(b)`: writes status 200 first when no status was written. -/
def ResponseWriter.Write (w : ResponseWriter) (b : String) : ResponseWriter :=
  let w1 := w.WriteHeader 200
  { w1 with body := w1.body ++ b }

/-- Go: `http.Error(w, error, code)`. -/
def Error (w : ResponseWriter) (error : String) (code : Nat) : ResponseWriter :=
  let w := w.DelHeader "Content-Length"
  let w := w.SetHeader "Content-Type" "text/plain; charset=utf-8"
  let w := w.SetHeader "X-Content-Type-Options" "nosniff"
  let w := w.WriteHeader code
  w.Write (error ++ "\n")

/-- Go: `http.NotFound(w, r)`. -/
def NotFound (w : ResponseWriter) : ResponseWriter :=
  Error w "404 page not found" 404

/-- Go: `rand.Intn(n)`: panics (`none`) when `n <= 0`, otherwise reduces the
accepted raw draw into `[0, n)`. -/
def Intn (draw : Nat) (n : Int) : Option Int :=
  if n ≤ 0 then none else some ((draw : Int) % n)

/-! ## Metrics operations -/

/-- Go: the instruments as `RegisterDeviceMetrics` creates them: gauge at zero,
no labelled series, no observation. -/
def RegisterDeviceMetrics : deviceMetrics :=
  { devices := 0, info := [], upgrades := fun _ => 0, duration := [], durationSumy := [] }

/-- Go: `m.devices.Set(float64(n))`. -/
def deviceMetrics.setDevices (m : deviceMetrics) (n : Nat) : deviceMetrics :=
  { m with devices := n }

/-- Go: `m.info.With(prometheus.Labels{"version": v}).Set(x)`. -/
def deviceMetrics.setInfo (m : deviceMetrics) (v : String) (x : Nat) : deviceMetrics :=
  { m with info := m.info.filter (fun kv => kv.1 ≠ v) ++ [(v, x)] }

/-- Go: `m.upgrades.With(prometheus.Labels{"type": t}).Inc()`. -/
def deviceMetrics.incUpgrades (m : deviceMetrics) (t : String) : deviceMetrics :=
  { m with upgrades := fun k => if k = t then m.upgrades k + 1 else m.upgrades k }

/-- Go: what `With` of a `status, method, path` vector checks: every label value
is valid UTF-8. Status and method are text, the path is the one value that can
fail. -/
def Labels.valid (l : Labels) : Bool := utf8Valid l.path

/-- Go: `m.duration.With(labels).Observe(..)`; `none` is the panic of `With`. -/
def deviceMetrics.observeDuration (m : deviceMetrics) (l : Labels) : Option deviceMetrics :=
  if l.valid then some { m with duration := m.duration ++ [l] } else none

/-- Go: `m.durationSumy.With(labels).Observe(..)`; `none` is the panic of `With`. -/
def deviceMetrics.observeSumy (m : deviceMetrics) (l : Labels) : Option deviceMetrics :=
  if l.valid then some { m with durationSumy := m.durationSumy ++ [l] } else none

/-! ## The program -/

/-- Go: `var version = "1.0.0"`. -/
def version : String := "1.0.0"

/-- Go: `func init()`: the two devices appended to the empty `devices`. -/
def init : List Device :=
  [] ++ [⟨1, "AA:BB:CC:DD:EE:01", "1.0.0"⟩, ⟨2, "AA:BB:CC:DD:EE:02", "1.0.0"⟩]

/-- Go: the state `main` has built when the listeners start: `devices` as
`init` left it, the gauge set to `len(devices)`, `version_info` set to 1. -/
def main : State :=
  let m := RegisterDeviceMetrics
  let m := m.setDevices init.length
  let m := m.setInfo version 1
  { devices := init, metrics := m }

/-- Go: `func sleep(ms int)`, with `sec` the value of `now.Second()` and `draw`
the raw value `rand.Intn` reduces. The result is the `time.Duration`, in
nanoseconds, handed to `time.Sleep`; `none` is the panic of `rand.Intn`. -/
def sleep (ms : Int) (sec : Fin 60) (draw : Nat) : Option Int :=
  match Intn draw (wrapInt (ms + (sec.val : Int))) with
  | none => none
  | some n => some (wrapInt (n * 1000000))

/-- Go: `func getDevices(w, r, m)`. -/
def getDevices (L : Lib) (e : Env) (w : ResponseWriter) (r : Request) (s : State) : Outcome :=
  match L.marshal s.devices with
  | .error err => .returned s (Error w err 500)
  | .ok b =>
    match sleep 200 e.sec e.draw with
    | none => .panicked s w
    | some _ =>
      match s.metrics.observeDuration ⟨"200", r.Method, r.Path⟩ with
      | none => .panicked s w
      | some m =>
        let w := w.SetHeader "Content-Type" "application/json"
        let w := w.WriteHeader 200
        let w := w.Write b
        .returned { s with metrics := m } w

/-- Go: `func createDevices(w, r, m)`. -/
def createDevices (L : Lib) (w : ResponseWriter) (r : Request) (s : State) : Outcome :=
  match L.decode r.Body with
  | .error err => .returned s (Error w err 400)
  | .ok device =>
    let devices := s.devices ++ [device]
    let m := s.metrics.setDevices devices.length
    let w := w.WriteHeader 201
    let w := w.Write "Devcie created."
    .returned { devices := devices, metrics := m } w

/-- One iteration of the loop of `upgradeDevice`:
`if devices[i].ID == id { devices[i].Firmware = firmware }`. -/
def upgradeAt (id : Int) (firmware : String) (devices : List Device) (i : Nat) : List Device :=
  match devices[i]? with
  | some d => if d.ID = id then devices.set i { d with Firmware := firmware } else devices
  | none => devices

/-- Go: `for i := range devices { .. }` of `upgradeDevice`: the indices
`0 .. len(devices)-1` in order, each updating the slice in place. -/
def upgradeLoop (id : Int) (firmware : String) (devices : List Device) : List Device :=
  (List.range devices.length).foldl (upgradeAt id firmware) devices

/-- Go: `func upgradeDevice(w, r, m)`. -/
def upgradeDevice (L : Lib) (e : Env) (w : ResponseWriter) (r : Request) (s : State) : Outcome :=
  let path := TrimPrefix r.Path (bytes "/devices/")
  match Atoi path with
  | none => .returned s (NotFound w)
  | some id =>
    if id < 1 then .returned s (NotFound w)
    else
      match L.decode r.Body with
      | .error err => .returned s (Error w err 400)
      | .ok device =>
        let devices := upgradeLoop id device.Firmware s.devices
        match sleep 1000 e.sec e.draw with
        | none => .panicked { devices := devices, metrics := s.metrics } w
        | some _ =>
          let m := s.metrics.incUpgrades "router"
          let w := w.WriteHeader 202
          let w := w.Write "Device upgraded."
          .returned { devices := devices, metrics := m } w

/-- Go: `func (rdh registerDeviceHandler) ServeHTTP(w, r)`. -/
def registerDeviceHandler (L : Lib) (e : Env) (w : ResponseWriter) (r : Request) (s : State) :
    Outcome :=
  if r.Method = "GET" then getDevices L e w r s
  else if r.Method = "POST" then createDevices L w r s
  else
    let w := w.SetHeader "Allow" "GET, POST"
    .returned s (Error w "method not allowed" 405)

/-- Go: `func (udh upgradeDeviceHandler) ServeHTTP(w, r)`. -/
def upgradeDeviceHandler (L : Lib) (e : Env) (w : ResponseWriter) (r : Request) (s : State) :
    Outcome :=
  if r.Method = "PUT" then upgradeDevice L e w r s
  else
    let w := w.SetHeader "Only Allow" "PUT"
    .returned s (Error w "Method not allowed" 405)

/-- Go: `func middleware(next, m)`: runs `next`, then records one observation of
the summary whose status label is read back from the response header
`statusCode`. A panic of `next` leaves the function before the observation; a
panic of `With` leaves it with nothing recorded. -/
def middleware (next : ResponseWriter → Request → State → Outcome)
    (w : ResponseWriter) (r : Request) (s : State) : Outcome :=
  match next w r s with
  | .panicked s1 w1 => .panicked s1 w1
  | .returned s1 w1 =>
    match s1.metrics.observeSumy ⟨headerGet w1.header "statusCode", r.Method, r.Path⟩ with
    | none => .panicked s1 w1
    | some m => .returned { s1 with metrics := m } w1

/-- The two patterns registered on `dMux` in `main`: `devices` is `/devices`,
`device` is `/devices/{id}`. Which pattern a path matches is the mux's matter: a
request carries its route and its path side by side, and the path is left free on
both routes, so a statement over all requests covers at least those the mux lets
through. -/
inductive Route where
  | devices
  | device
  deriving DecidableEq, Repr

/-- Go: the handler values `rdh` and `udh` of `main`, by the route each is
registered for. -/
def routeHandler (L : Lib) (e : Env) : Route → ResponseWriter → Request → State → Outcome
  | .devices => registerDeviceHandler L e
  | .device => upgradeDeviceHandler L e

/-- Go: the handlers `mrdh` and `mudh` that `main` registers on `dMux`: `rdh`
and `udh`, each wrapped in `middleware`. -/
def dMux (L : Lib) (e : Env) (route : Route) : ResponseWriter → Request → State → Outcome :=
  middleware (routeHandler L e route)

/-- One request served on the device listener: the routed handler run on a
fresh writer. -/
def serve (L : Lib) (q : Route × Env × Request) (s : State) : Outcome :=
  dMux L q.2.1 q.1 newResponseWriter q.2.2 s

/-- The state after the requests of a list were served one after the other. The
server recovers a panic of a handler and goes on serving, on the state the
handler left. -/
def run (L : Lib) : List (Route × Env × Request) → State → State
  | [], s => s
  | q :: qs, s => run L qs (serve L q s).state

/-- What the spec says an upgrade does to one record: a record whose ID equals
`id` gets the firmware, every other record is unchanged. -/
def setFirmware (id : Int) (firmware : String) (d : Device) : Device :=
  if d.ID = id then { d with Firmware := firmware } else d

/-- A stand-in for `encoding/json` on the request bodies of the examples: it
decodes the three objects listed the way `Decode` does from the zero `Device`,
rejects the truncated body `\x7b` and every other body, and it prints devices
whose strings need no escaping the way `Marshal` does. -/
def exampleLib : Lib where
  decode b :=
    if b = "\x7b\"id\":3,\"mac\":\"AA:BB:CC:DD:EE:03\",\"firmware\":\"2.0.0\"\x7d" then
      .ok ⟨3, "AA:BB:CC:DD:EE:03", "2.0.0"⟩
    else if b = "\x7b\"firmware\":\"2.0.0\"\x7d" then .ok ⟨0, "", "2.0.0"⟩
    else if b = "\x7b\x7d" then .ok ⟨0, "", ""⟩
    else .error "unexpected EOF"
  marshal ds :=
    .ok ("[" ++ ",".intercalate (ds.map fun d =>
      "\x7b\"id\":" ++ toString d.ID ++ ",\"mac\":\"" ++ d.Mac ++
        "\",\"firmware\":\"" ++ d.Firmware ++ "\"\x7d") ++ "]")

/-! ## Lemmas -/

theorem upgradeAt_getElem? (id : Int) (fw : String) (ds : List Device) (i j : Nat) :
    (upgradeAt id fw ds i)[j]? = if j = i then ds[j]?.map (setFirmware id fw) else ds[j]? := by
  unfold upgradeAt
  by_cases hji : j = i
  · subst hji
    cases h : ds[j]? with
    | none => simpa using h
    | some d =>
      have hlt : j < ds.length := by
        rcases List.getElem?_eq_some.1 h with ⟨hl, _⟩
        exact hl
      by_cases hid : d.ID = id
      · simp [hid, setFirmware, List.getElem?_set, hlt]
      · simp [hid, setFirmware, h]
  · cases h : ds[i]? with
    | none => simp [hji]
    | some d =>
      by_cases hid : d.ID = id
      · have : i ≠ j := fun e => hji e.symm
        simp [hid, hji, List.getElem?_set, this]
      · simp [hid, hji]

theorem foldl_upgradeAt_getElem? (id : Int) (fw : String) (k : Nat) (ds : List Device) (j : Nat) :
    ((List.range k).foldl (upgradeAt id fw) ds)[j]? =
      if j < k then ds[j]?.map (setFirmware id fw) else ds[j]? := by
  induction k with
  | zero => simp
  | succ k ih =>
    rw [List.range_succ, List.foldl_append]
    simp only [List.foldl_cons, List.foldl_nil]
    rw [upgradeAt_getElem?, ih]
    by_cases h1 : j = k
    · subst h1; simp
    · by_cases h2 : j < k
      · have : j < k + 1 := by omega
        simp [h1, h2, this]
      · have : ¬ j < k + 1 := by omega
        simp [h1, h2, this]

/-- The index loop of `upgradeDevice` computes the record-wise update. -/
theorem upgradeLoop_eq_map (id : Int) (fw : String) (ds : List Device) :
    upgradeLoop id fw ds = ds.map (setFirmware id fw) := by
  apply List.ext_getElem?
  intro j
  unfold upgradeLoop
  rw [foldl_upgradeAt_getElem?, List.getElem?_map]
  by_cases h : j < ds.length
  · simp [h]
  · have : ds[j]? = none := by
      apply List.getElem?_eq_none
      omega
    simp [h, this]

/-- Inside the range of `int` the wrap-around is the identity. -/
theorem wrapInt_of_range (x : Int) (h1 : minInt ≤ x) (h2 : x ≤ maxInt) : wrapInt x = x := by
  unfold wrapInt
  rw [if_pos ⟨h1, h2⟩]

/-- The wrap-around is reduction modulo `2 ^ 64` into `[-2 ^ 63, 2 ^ 63)`. -/
theorem wrapInt_eq_emod (x : Int) : wrapInt x = (x + 2 ^ 63) % 2 ^ 64 - 2 ^ 63 := by
  unfold wrapInt minInt maxInt
  split <;> omega

/-- With a positive bound that does not overflow, `sleep` does not panic. -/
theorem sleep_some (ms : Int) (sec : Fin 60) (draw : Nat) (h1 : 1 ≤ ms)
    (h2 : ms + (sec.val : Int) ≤ maxInt) :
    sleep ms sec draw =
      some (wrapInt ((draw : Int) % (ms + (sec.val : Int)) * 1000000)) := by
  have hr : wrapInt (ms + (sec.val : Int)) = ms + (sec.val : Int) := by
    apply wrapInt_of_range _ _ h2
    unfold minInt
    omega
  have hpos : ¬ ms + (sec.val : Int) ≤ 0 := by omega
  simp [sleep, Intn, hr, hpos]

theorem sleep_200 (e : Env) : ∃ d, sleep 200 e.sec e.draw = some d := by
  refine ⟨_, sleep_some 200 e.sec e.draw (by decide) ?_⟩
  have := e.sec.isLt
  unfold maxInt
  omega

theorem sleep_1000 (e : Env) : ∃ d, sleep 1000 e.sec e.draw = some d := by
  refine ⟨_, sleep_some 1000 e.sec e.draw (by decide) ?_⟩
  have := e.sec.isLt
  unfold maxInt
  omega

/-! ## The response writer and the handlers, case by case -/

theorem empty_append (b : String) : "" ++ b = b := by
  apply String.ext
  simp

theorem WriteHeader_fresh (h : List (String × String)) (st code : Nat) (b : String) :
    (ResponseWriter.mk h false st b).WriteHeader code = ⟨h, true, code, b⟩ := rfl

theorem Write_written (h : List (String × String)) (st : Nat) (b x : String) :
    (ResponseWriter.mk h true st b).Write x = ⟨h, true, st, b ++ x⟩ := rfl

theorem SetHeader_mk (h : List (String × String)) (wh : Bool) (st : Nat) (b k v : String) :
    (ResponseWriter.mk h wh st b).SetHeader k v = ⟨headerSet h k v, wh, st, b⟩ := rfl

theorem DelHeader_mk (h : List (String × String)) (wh : Bool) (st : Nat) (b k : String) :
    (ResponseWriter.mk h wh st b).DelHeader k = ⟨headerDel h k, wh, st, b⟩ := rfl

theorem Error_header_new :
    headerSet (headerSet (headerDel [] "Content-Length") "Content-Type"
      "text/plain; charset=utf-8") "X-Content-Type-Options" "nosniff" =
      [("Content-Type", "text/plain; charset=utf-8"), ("X-Content-Type-Options", "nosniff")] := by
  decide

theorem Error_new (err : String) (code : Nat) :
    Error newResponseWriter err code =
      ⟨[("Content-Type", "text/plain; charset=utf-8"), ("X-Content-Type-Options", "nosniff")],
        true, code, err ++ "\n"⟩ := by
  unfold Error newResponseWriter
  simp only [DelHeader_mk, SetHeader_mk, WriteHeader_fresh, Write_written, Error_header_new,
    empty_append]

/-- The 404 response on a fresh writer. -/
theorem NotFound_new :
    NotFound newResponseWriter =
      ⟨[("Content-Type", "text/plain; charset=utf-8"), ("X-Content-Type-Options", "nosniff")],
        true, 404, "404 page not found\n"⟩ := by
  unfold NotFound
  rw [Error_new]
  decide

/-- An observation of the histogram under a path that is valid UTF-8. -/
theorem observeDuration_valid (m : deviceMetrics) (l : Labels) (hv : utf8Valid l.path = true) :
    m.observeDuration l = some { m with duration := m.duration ++ [l] } := by
  unfold deviceMetrics.observeDuration Labels.valid
  rw [if_pos hv]

/-- `With` of the histogram panics under a path that is not valid UTF-8. -/
theorem observeDuration_invalid (m : deviceMetrics) (l : Labels)
    (hv : utf8Valid l.path = false) : m.observeDuration l = none := by
  unfold deviceMetrics.observeDuration Labels.valid
  rw [hv]
  rfl

/-- An observation of the summary under a path that is valid UTF-8. -/
theorem observeSumy_valid (m : deviceMetrics) (l : Labels) (hv : utf8Valid l.path = true) :
    m.observeSumy l = some { m with durationSumy := m.durationSumy ++ [l] } := by
  unfold deviceMetrics.observeSumy Labels.valid
  rw [if_pos hv]

/-- `With` of the summary panics under a path that is not valid UTF-8. -/
theorem observeSumy_invalid (m : deviceMetrics) (l : Labels)
    (hv : utf8Valid l.path = false) : m.observeSumy l = none := by
  unfold deviceMetrics.observeSumy Labels.valid
  rw [hv]
  rfl

/-- A successful `getDevices` on a fresh writer, the path valid UTF-8. -/
theorem getDevices_ok (L : Lib) (e : Env) (r : Request) (s : State) (b : String)
    (hm : L.marshal s.devices = .ok b) (hv : utf8Valid r.Path = true) :
    getDevices L e newResponseWriter r s =
      .returned { devices := s.devices,
                  metrics := { s.metrics with
                    duration := s.metrics.duration ++ [⟨"200", r.Method, r.Path⟩] } }
        ⟨[("Content-Type", "application/json")], true, 200, b⟩ := by
  obtain ⟨d, hd⟩ := sleep_200 e
  have h1 : headerSet [] "Content-Type" "application/json" =
      [("Content-Type", "application/json")] := by decide
  have ho := observeDuration_valid s.metrics ⟨"200", r.Method, r.Path⟩ hv
  unfold getDevices newResponseWriter
  simp only [hm, hd, ho, SetHeader_mk, WriteHeader_fresh, Write_written, h1, empty_append]

/-- In `getDevices` the `With` of the histogram panics on a path that is not valid
UTF-8, before anything is written. -/
theorem getDevices_invalid (L : Lib) (e : Env) (w : ResponseWriter) (r : Request) (s : State)
    (b : String) (hm : L.marshal s.devices = .ok b) (hv : utf8Valid r.Path = false) :
    getDevices L e w r s = .panicked s w := by
  obtain ⟨d, hd⟩ := sleep_200 e
  have ho := observeDuration_invalid s.metrics ⟨"200", r.Method, r.Path⟩ hv
  unfold getDevices
  simp only [hm, hd, ho]

/-- A failed serialisation in `getDevices`. -/
theorem getDevices_error (L : Lib) (e : Env) (r : Request) (s : State) (err : String)
    (hm : L.marshal s.devices = .error err) :
    getDevices L e newResponseWriter r s = .returned s (Error newResponseWriter err 500) := by
  unfold getDevices
  simp only [hm]

/-- A decoded body in `createDevices` on a fresh writer. -/
theorem createDevices_ok (L : Lib) (r : Request) (s : State) (d : Device)
    (hd : L.decode r.Body = .ok d) :
    createDevices L newResponseWriter r s =
      .returned { devices := s.devices ++ [d],
                  metrics := s.metrics.setDevices (s.devices ++ [d]).length }
        ⟨[], true, 201, "Devcie created."⟩ := by
  unfold createDevices newResponseWriter
  simp only [hd, WriteHeader_fresh, Write_written, empty_append]

/-- A rejected body in `createDevices`. -/
theorem createDevices_error (L : Lib) (r : Request) (s : State) (err : String)
    (hd : L.decode r.Body = .error err) :
    createDevices L newResponseWriter r s = .returned s (Error newResponseWriter err 400) := by
  unfold createDevices
  simp only [hd]

/-- The path id of `upgradeDevice` does not parse. -/
theorem upgradeDevice_no_id (L : Lib) (e : Env) (w : ResponseWriter) (r : Request) (s : State)
    (h : Atoi (TrimPrefix r.Path (bytes "/devices/")) = none) :
    upgradeDevice L e w r s = .returned s (NotFound w) := by
  unfold upgradeDevice
  simp only [h]

/-- The path id of `upgradeDevice` is below one. -/
theorem upgradeDevice_low_id (L : Lib) (e : Env) (w : ResponseWriter) (r : Request) (s : State)
    (id : Int) (h : Atoi (TrimPrefix r.Path (bytes "/devices/")) = some id) (hlt : id < 1) :
    upgradeDevice L e w r s = .returned s (NotFound w) := by
  unfold upgradeDevice
  simp only [h, hlt, if_true]

/-- A rejected body in `upgradeDevice` under a valid path id. -/
theorem upgradeDevice_error (L : Lib) (e : Env) (w : ResponseWriter) (r : Request) (s : State)
    (id : Int) (err : String) (h : Atoi (TrimPrefix r.Path (bytes "/devices/")) = some id)
    (hge : 1 ≤ id) (hd : L.decode r.Body = .error err) :
    upgradeDevice L e w r s = .returned s (Error w err 400) := by
  have hlt : ¬ id < 1 := by omega
  unfold upgradeDevice
  simp only [h, hlt, if_false, hd]

/-- A decoded body in `upgradeDevice` under a valid path id, on a fresh writer. -/
theorem upgradeDevice_ok (L : Lib) (e : Env) (r : Request) (s : State)
    (id : Int) (d : Device) (h : Atoi (TrimPrefix r.Path (bytes "/devices/")) = some id)
    (hge : 1 ≤ id) (hd : L.decode r.Body = .ok d) :
    upgradeDevice L e newResponseWriter r s =
      .returned { devices := s.devices.map (setFirmware id d.Firmware),
                  metrics := s.metrics.incUpgrades "router" }
        ⟨[], true, 202, "Device upgraded."⟩ := by
  have hlt : ¬ id < 1 := by omega
  obtain ⟨t, ht⟩ := sleep_1000 e
  unfold upgradeDevice newResponseWriter
  simp only [h, hlt, if_false, hd, ht, upgradeLoop_eq_map, WriteHeader_fresh, Write_written,
    empty_append]

/-- An unsupported method on `/devices`, on a fresh writer. -/
theorem registerDeviceHandler_other (L : Lib) (e : Env) (r : Request) (s : State)
    (hg : r.Method ≠ "GET") (hp : r.Method ≠ "POST") :
    registerDeviceHandler L e newResponseWriter r s =
      .returned s ⟨[("Allow", "GET, POST"), ("Content-Type", "text/plain; charset=utf-8"),
        ("X-Content-Type-Options", "nosniff")], true, 405, "method not allowed\n"⟩ := by
  have h1 : headerSet (headerSet (headerDel (headerSet [] "Allow" "GET, POST") "Content-Length")
      "Content-Type" "text/plain; charset=utf-8") "X-Content-Type-Options" "nosniff" =
      [("Allow", "GET, POST"), ("Content-Type", "text/plain; charset=utf-8"),
        ("X-Content-Type-Options", "nosniff")] := by decide
  have h2 : "method not allowed" ++ "\n" = "method not allowed\n" := by decide
  unfold registerDeviceHandler
  rw [if_neg hg, if_neg hp]
  unfold Error newResponseWriter
  simp only [DelHeader_mk, SetHeader_mk, WriteHeader_fresh, Write_written, h1, h2, empty_append]

/-- An unsupported method on `/devices/{id}`, on a fresh writer. -/
theorem upgradeDeviceHandler_other (L : Lib) (e : Env) (r : Request) (s : State)
    (hp : r.Method ≠ "PUT") :
    upgradeDeviceHandler L e newResponseWriter r s =
      .returned s ⟨[("Only Allow", "PUT"), ("Content-Type", "text/plain; charset=utf-8"),
        ("X-Content-Type-Options", "nosniff")], true, 405, "Method not allowed\n"⟩ := by
  have h1 : headerSet (headerSet (headerDel (headerSet [] "Only Allow" "PUT") "Content-Length")
      "Content-Type" "text/plain; charset=utf-8") "X-Content-Type-Options" "nosniff" =
      [("Only Allow", "PUT"), ("Content-Type", "text/plain; charset=utf-8"),
        ("X-Content-Type-Options", "nosniff")] := by decide
  have h2 : "Method not allowed" ++ "\n" = "Method not allowed\n" := by decide
  unfold upgradeDeviceHandler
  rw [if_neg hp]
  unfold Error newResponseWriter
  simp only [DelHeader_mk, SetHeader_mk, WriteHeader_fresh, Write_written, h1, h2, empty_append]

theorem registerDeviceHandler_GET (L : Lib) (e : Env) (w : ResponseWriter) (r : Request)
    (s : State) (hg : r.Method = "GET") :
    registerDeviceHandler L e w r s = getDevices L e w r s := by
  unfold registerDeviceHandler
  rw [if_pos hg]

theorem registerDeviceHandler_POST (L : Lib) (e : Env) (w : ResponseWriter) (r : Request)
    (s : State) (hp : r.Method = "POST") :
    registerDeviceHandler L e w r s = createDevices L w r s := by
  have hg : r.Method ≠ "GET" := by rw [hp]; decide
  unfold registerDeviceHandler
  rw [if_neg hg, if_pos hp]

theorem upgradeDeviceHandler_PUT (L : Lib) (e : Env) (w : ResponseWriter) (r : Request)
    (s : State) (hp : r.Method = "PUT") :
    upgradeDeviceHandler L e w r s = upgradeDevice L e w r s := by
  unfold upgradeDeviceHandler
  rw [if_pos hp]

/-- What `middleware` adds to a handler that returned, the path valid UTF-8. -/
theorem middleware_returned (next : ResponseWriter → Request → State → Outcome)
    (w : ResponseWriter) (r : Request) (s s1 : State) (w1 : ResponseWriter)
    (h : next w r s = .returned s1 w1) (hv : utf8Valid r.Path = true) :
    middleware next w r s =
      .returned { devices := s1.devices,
                  metrics := { s1.metrics with
                    durationSumy := s1.metrics.durationSumy ++
                      [⟨headerGet w1.header "statusCode", r.Method, r.Path⟩] } } w1 := by
  have ho := observeSumy_valid s1.metrics ⟨headerGet w1.header "statusCode", r.Method, r.Path⟩ hv
  unfold middleware
  simp only [h, ho]

/-- After a handler that returned, `middleware` panics on a path that is not valid
UTF-8 and leaves the state and the writer as the handler left them. -/
theorem middleware_invalid (next : ResponseWriter → Request → State → Outcome)
    (w : ResponseWriter) (r : Request) (s s1 : State) (w1 : ResponseWriter)
    (h : next w r s = .returned s1 w1) (hv : utf8Valid r.Path = false) :
    middleware next w r s = .panicked s1 w1 := by
  have ho :=
    observeSumy_invalid s1.metrics ⟨headerGet w1.header "statusCode", r.Method, r.Path⟩ hv
  unfold middleware
  simp only [h, ho]

/-- A panic of the handler passes through `middleware`. -/
theorem middleware_panicked (next : ResponseWriter → Request → State → Outcome)
    (w : ResponseWriter) (r : Request) (s s1 : State) (w1 : ResponseWriter)
    (h : next w r s = .panicked s1 w1) :
    middleware next w r s = .panicked s1 w1 := by
  unfold middleware
  simp only [h]

/-- A served request is its route's handler run under `middleware` on a fresh writer. -/
theorem serve_eq (L : Lib) (route : Route) (e : Env) (r : Request) (s : State) :
    serve L (route, e, r) s = middleware (routeHandler L e route) newResponseWriter r s := rfl

theorem statusCode_absent_error :
    headerGet [("Content-Type", "text/plain; charset=utf-8"),
      ("X-Content-Type-Options", "nosniff")] "statusCode" = "" := by decide

theorem statusCode_absent_json :
    headerGet [("Content-Type", "application/json")] "statusCode" = "" := by decide

theorem statusCode_absent_empty : headerGet [] "statusCode" = "" := by decide

theorem statusCode_absent_allow :
    headerGet [("Allow", "GET, POST"), ("Content-Type", "text/plain; charset=utf-8"),
      ("X-Content-Type-Options", "nosniff")] "statusCode" = "" := by decide

theorem statusCode_absent_only_allow :
    headerGet [("Only Allow", "PUT"), ("Content-Type", "text/plain; charset=utf-8"),
      ("X-Content-Type-Options", "nosniff")] "statusCode" = "" := by decide

/-- Bytes below `0x80` are valid UTF-8. -/
theorem utf8Valid_ascii (l : Bytes) (h : ∀ b ∈ l, b.toNat < 0x80) : utf8Valid l = true := by
  unfold utf8Valid
  induction l with
  | nil => rfl
  | cons b l ih =>
    have hb : b.toNat < 0x80 := h b (List.mem_cons_self b l)
    have hl : ∀ c ∈ l, c.toNat < 0x80 := fun c hc => h c (List.mem_cons_of_mem b hc)
    rw [utf8Scan, if_pos rfl, if_pos hb]
    exact ih hl

/-- A stripped prefix is a prefix. -/
theorem stripPrefixBytes_eq (pre : Bytes) :
    ∀ (s rest : Bytes), stripPrefixBytes s pre = some rest → s = pre ++ rest := by
  induction pre with
  | nil =>
    intro s rest h
    cases s <;> simpa [stripPrefixBytes] using h
  | cons p ps ih =>
    intro s rest h
    cases s with
    | nil => simp [stripPrefixBytes] at h
    | cons c s =>
      by_cases hc : c = p
      · subst hc
        have h2 : stripPrefixBytes s ps = some rest := by
          simpa [stripPrefixBytes] using h
        rw [ih s rest h2]
        rfl
      · simp [stripPrefixBytes, hc] at h

/-- A digit is below `0x80`. -/
theorem isDigitByte_ascii (b : UInt8) (h : isDigitByte b = true) : b.toNat < 0x80 := by
  unfold isDigitByte at h
  rw [Bool.and_eq_true] at h
  have h2 : b.toNat ≤ 57 := of_decide_eq_true h.2
  omega

/-- What `Atoi` accepts is made of bytes below `0x80`. -/
theorem Atoi_ascii (s : Bytes) (n : Int) (h : Atoi s = some n) :
    ∀ b ∈ s, b.toNat < 0x80 := by
  have hparse : ∀ (ds : Bytes) (neg : Bool),
      (if ds.isEmpty then none
        else if ds.all isDigitByte then
          (if minInt ≤ (if neg then -(digitsValue ds : Int) else (digitsValue ds : Int)) ∧
              (if neg then -(digitsValue ds : Int) else (digitsValue ds : Int)) ≤ maxInt
            then some (if neg then -(digitsValue ds : Int) else (digitsValue ds : Int))
            else none)
        else none) = some n → ∀ b ∈ ds, b.toNat < 0x80 := by
    intro ds neg hp b hb
    by_cases he : ds.isEmpty = true
    · rw [if_pos he] at hp
      cases hp
    · rw [if_neg he] at hp
      by_cases ha : ds.all isDigitByte = true
      · exact isDigitByte_ascii b (List.all_eq_true.1 ha b hb)
      · rw [if_neg ha] at hp
        cases hp
  cases s with
  | nil =>
    intro b hb
    cases hb
  | cons c ds =>
    unfold Atoi at h
    simp only at h
    intro b hb
    by_cases h45 : c = 45
    · rw [if_pos h45] at h
      rcases List.mem_cons.1 hb with hbc | hbd
      · rw [hbc, h45]
        decide
      · exact hparse ds true h b hbd
    · rw [if_neg h45] at h
      by_cases h43 : c = 43
      · rw [if_pos h43] at h
        rcases List.mem_cons.1 hb with hbc | hbd
        · rw [hbc, h43]
          decide
        · exact hparse ds false h b hbd
      · rw [if_neg h43] at h
        exact hparse (c :: ds) false h b hb

/-- A path whose segment after `/devices/` parses with `Atoi` is valid UTF-8. -/
theorem path_valid_of_Atoi (p : Bytes) (n : Int)
    (h : Atoi (TrimPrefix p (bytes "/devices/")) = some n) : utf8Valid p = true := by
  apply utf8Valid_ascii
  unfold TrimPrefix at h
  cases hs : stripPrefixBytes p (bytes "/devices/") with
  | none =>
    rw [hs] at h
    exact Atoi_ascii p n h
  | some rest =>
    rw [hs] at h
    have hp := stripPrefixBytes_eq _ p rest hs
    have hpre : ∀ b ∈ bytes "/devices/", b.toNat < 0x80 := by decide
    intro b hb
    rw [hp] at hb
    rcases List.mem_append.1 hb with h1 | h2
    · exact hpre b h1
    · exact Atoi_ascii rest n h b h2

/-- Every request on a device route ends with no `Statuscode` header set and in one
of six ways: an error response that leaves the state as it was, a listing, a panic
of the listing on a path that is not valid UTF-8, a creation, or an upgrade. -/
theorem routeHandler_outcome (L : Lib) (e : Env) (route : Route) (r : Request) (s : State) :
    headerGet (routeHandler L e route newResponseWriter r s).writer.header "statusCode" = "" ∧
      ((∃ w1, routeHandler L e route newResponseWriter r s = .returned s w1 ∧
          (w1.status = 400 ∨ w1.status = 404 ∨ w1.status = 405 ∨ w1.status = 500)) ∨
       (route = .devices ∧ r.Method = "GET" ∧ utf8Valid r.Path = true ∧
          ∃ w1, w1.status = 200 ∧
            routeHandler L e route newResponseWriter r s =
              .returned { devices := s.devices,
                          metrics := { s.metrics with
                            duration := s.metrics.duration ++ [⟨"200", r.Method, r.Path⟩] } }
                w1) ∨
       (route = .devices ∧ r.Method = "GET" ∧ utf8Valid r.Path = false ∧
          routeHandler L e route newResponseWriter r s = .panicked s newResponseWriter) ∨
       (∃ d, route = .devices ∧ r.Method = "POST" ∧ L.decode r.Body = .ok d ∧
          ∃ w1, w1.status = 201 ∧
            routeHandler L e route newResponseWriter r s =
              .returned ⟨s.devices ++ [d], s.metrics.setDevices (s.devices ++ [d]).length⟩ w1) ∨
       (∃ id d, route = .device ∧ r.Method = "PUT" ∧
          Atoi (TrimPrefix r.Path (bytes "/devices/")) = some id ∧ 1 ≤ id ∧
          L.decode r.Body = .ok d ∧
          ∃ w1, w1.status = 202 ∧
            routeHandler L e route newResponseWriter r s =
              .returned ⟨s.devices.map (setFirmware id d.Firmware),
                s.metrics.incUpgrades "router"⟩ w1)) := by
  cases route with
  | devices =>
    rw [show routeHandler L e Route.devices = registerDeviceHandler L e from rfl]
    by_cases hg : r.Method = "GET"
    · rw [registerDeviceHandler_GET L e _ r s hg]
      cases hm : L.marshal s.devices with
      | error err =>
        rw [getDevices_error L e r s err hm, Error_new]
        exact ⟨statusCode_absent_error, Or.inl ⟨_, rfl, Or.inr (Or.inr (Or.inr rfl))⟩⟩
      | ok b =>
        cases hv : utf8Valid r.Path with
        | true =>
          rw [getDevices_ok L e r s b hm hv]
          exact ⟨statusCode_absent_json, Or.inr (Or.inl ⟨rfl, hg, rfl, _, rfl, rfl⟩)⟩
        | false =>
          rw [getDevices_invalid L e _ r s b hm hv]
          exact ⟨statusCode_absent_empty, Or.inr (Or.inr (Or.inl ⟨rfl, hg, rfl, rfl⟩))⟩
    · by_cases hp : r.Method = "POST"
      · rw [registerDeviceHandler_POST L e _ r s hp]
        cases hd : L.decode r.Body with
        | error err =>
          rw [createDevices_error L r s err hd, Error_new]
          exact ⟨statusCode_absent_error, Or.inl ⟨_, rfl, Or.inl rfl⟩⟩
        | ok d =>
          rw [createDevices_ok L r s d hd]
          exact ⟨statusCode_absent_empty,
            Or.inr (Or.inr (Or.inr (Or.inl ⟨d, rfl, hp, rfl, _, rfl, rfl⟩)))⟩
      · rw [registerDeviceHandler_other L e r s hg hp]
        exact ⟨statusCode_absent_allow, Or.inl ⟨_, rfl, Or.inr (Or.inr (Or.inl rfl))⟩⟩
  | device =>
    rw [show routeHandler L e Route.device = upgradeDeviceHandler L e from rfl]
    by_cases hp : r.Method = "PUT"
    · rw [upgradeDeviceHandler_PUT L e _ r s hp]
      cases ha : Atoi (TrimPrefix r.Path (bytes "/devices/")) with
      | none =>
        rw [upgradeDevice_no_id L e _ r s ha, NotFound_new]
        exact ⟨statusCode_absent_error, Or.inl ⟨_, rfl, Or.inr (Or.inl rfl)⟩⟩
      | some id =>
        by_cases hlt : id < 1
        · rw [upgradeDevice_low_id L e _ r s id ha hlt, NotFound_new]
          exact ⟨statusCode_absent_error, Or.inl ⟨_, rfl, Or.inr (Or.inl rfl)⟩⟩
        · have hge : 1 ≤ id := by omega
          cases hd : L.decode r.Body with
          | error err =>
            rw [upgradeDevice_error L e _ r s id err ha hge hd, Error_new]
            exact ⟨statusCode_absent_error, Or.inl ⟨_, rfl, Or.inl rfl⟩⟩
          | ok d =>
            rw [upgradeDevice_ok L e r s id d ha hge hd]
            exact ⟨statusCode_absent_empty,
              Or.inr (Or.inr (Or.inr (Or.inr ⟨id, d, rfl, hp, rfl, hge, rfl, _, rfl, rfl⟩)))⟩
    · rw [upgradeDeviceHandler_other L e r s hp]
      exact ⟨statusCode_absent_only_allow, Or.inl ⟨_, rfl, Or.inr (Or.inr (Or.inl rfl))⟩⟩

/-- A served request whose handler returned: its state and writer are the handler's,
but for the summary; it returns with one more observation when the path is valid
UTF-8 and panics with none otherwise. -/
theorem serve_of_returned (L : Lib) (route : Route) (e : Env) (r : Request) (s s1 : State)
    (w1 : ResponseWriter) (h : routeHandler L e route newResponseWriter r s = .returned s1 w1) :
    (utf8Valid r.Path = true →
      serve L (route, e, r) s =
        .returned { devices := s1.devices,
                    metrics := { s1.metrics with
                      durationSumy := s1.metrics.durationSumy ++
                        [⟨headerGet w1.header "statusCode", r.Method, r.Path⟩] } } w1) ∧
      (utf8Valid r.Path = false → serve L (route, e, r) s = .panicked s1 w1) ∧
      (serve L (route, e, r) s).writer = w1 ∧
      (serve L (route, e, r) s).state.devices = s1.devices ∧
      (serve L (route, e, r) s).state.metrics.devices = s1.metrics.devices ∧
      (serve L (route, e, r) s).state.metrics.upgrades = s1.metrics.upgrades ∧
      (serve L (route, e, r) s).state.metrics.info = s1.metrics.info ∧
      (serve L (route, e, r) s).state.metrics.duration = s1.metrics.duration := by
  have h1 := fun hv => (serve_eq L route e r s).trans
    (middleware_returned _ newResponseWriter r s s1 w1 h hv)
  have h2 := fun hv => (serve_eq L route e r s).trans
    (middleware_invalid _ newResponseWriter r s s1 w1 h hv)
  refine ⟨h1, h2, ?_⟩
  cases hv : utf8Valid r.Path with
  | true =>
    rw [h1 hv]
    exact ⟨rfl, rfl, rfl, rfl, rfl, rfl⟩
  | false =>
    rw [h2 hv]
    exact ⟨rfl, rfl, rfl, rfl, rfl, rfl⟩

/-- A served request whose handler panicked ends in that panic. -/
theorem serve_of_panicked (L : Lib) (route : Route) (e : Env) (r : Request) (s s1 : State)
    (w1 : ResponseWriter) (h : routeHandler L e route newResponseWriter r s = .panicked s1 w1) :
    serve L (route, e, r) s = .panicked s1 w1 :=
  (serve_eq L route e r s).trans (middleware_panicked _ newResponseWriter r s s1 w1 h)

/-! ## The claims -/

/-- C1: for every store and every device decoded from the body of a request to
`POST /devices` (whatever its id), `createDevices` leaves the store with the device
appended at the end, earlier records unchanged and the size one larger, sets the
gauge `device_count` to the new size and responds 201; the same holds of the request
served through the route, which returns whenever its path is valid UTF-8. -/
theorem createDevices_appends (L : Lib) (e : Env) (r : Request) (s : State) (d : Device)
    (hd : L.decode r.Body = .ok d) :
    createDevices L newResponseWriter r s =
        .returned { devices := s.devices ++ [d],
                    metrics := s.metrics.setDevices (s.devices.length + 1) }
          ⟨[], true, 201, "Devcie created."⟩ ∧
      (s.devices ++ [d]).length = s.devices.length + 1 ∧
      (∀ i, i < s.devices.length → (s.devices ++ [d])[i]? = s.devices[i]?) ∧
      (s.devices ++ [d])[s.devices.length]? = some d ∧
      (s.metrics.setDevices (s.devices.length + 1)).devices = s.devices.length + 1 ∧
      (r.Method = "POST" →
        (serve L (.devices, e, r) s).state.devices = s.devices ++ [d] ∧
          (serve L (.devices, e, r) s).state.metrics.devices = s.devices.length + 1 ∧
          (serve L (.devices, e, r) s).writer.status = 201 ∧
          (utf8Valid r.Path = true →
            ∃ s1 w1, serve L (.devices, e, r) s = .returned s1 w1 ∧
              s1.devices = s.devices ++ [d] ∧ s1.metrics.devices = s.devices.length + 1 ∧
              w1.status = 201)) := by
  have hlen : (s.devices ++ [d]).length = s.devices.length + 1 := by simp
  have hc := createDevices_ok L r s d hd
  rw [hlen] at hc
  refine ⟨hc, hlen, ?_, ?_, rfl, ?_⟩
  · intro i hi
    exact List.getElem?_append_left hi
  · simp
  · intro hp
    have hr : routeHandler L e .devices newResponseWriter r s = _ :=
      (registerDeviceHandler_POST L e newResponseWriter r s hp).trans hc
    obtain ⟨h1, _, h3, h4, h5, _⟩ := serve_of_returned L .devices e r s _ _ hr
    refine ⟨h4, h5, by rw [h3], ?_⟩
    intro hv
    exact ⟨_, _, h1 hv, rfl, rfl, rfl⟩

/-- C1 at the scenario of the spec: posting device 3 to the seeded store gives three
devices, the gauge 3 and status 201. -/
theorem createDevices_appends_witness :
    (createDevices exampleLib newResponseWriter
        ⟨"POST", bytes "/devices",
          "\x7b\"id\":3,\"mac\":\"AA:BB:CC:DD:EE:03\",\"firmware\":\"2.0.0\"\x7d"⟩ main).state.devices =
        [⟨1, "AA:BB:CC:DD:EE:01", "1.0.0"⟩, ⟨2, "AA:BB:CC:DD:EE:02", "1.0.0"⟩,
          ⟨3, "AA:BB:CC:DD:EE:03", "2.0.0"⟩] ∧
      (createDevices exampleLib newResponseWriter
        ⟨"POST", bytes "/devices",
          "\x7b\"id\":3,\"mac\":\"AA:BB:CC:DD:EE:03\",\"firmware\":\"2.0.0\"\x7d"⟩
        main).state.metrics.devices = 3 ∧
      (createDevices exampleLib newResponseWriter
        ⟨"POST", bytes "/devices",
          "\x7b\"id\":3,\"mac\":\"AA:BB:CC:DD:EE:03\",\"firmware\":\"2.0.0\"\x7d"⟩
        main).writer.status = 201 := by
  rw [(createDevices_appends exampleLib ⟨0, 0⟩
    ⟨"POST", bytes "/devices",
      "\x7b\"id\":3,\"mac\":\"AA:BB:CC:DD:EE:03\",\"firmware\":\"2.0.0\"\x7d"⟩ main
    ⟨3, "AA:BB:CC:DD:EE:03", "2.0.0"⟩ rfl).1]
  exact ⟨rfl, rfl, rfl⟩

/-- C2: for every store, every path id `n >= 1` and every body decoding to a device
`d`, `upgradeDevice` responds 202 and leaves the store mapped record by record: a
record whose ID is `n` gets the firmware of `d`, every other record is unchanged. So
every record with id `n` is updated, ids, macs, length and order are kept, the id and
mac of the body play no part, and with no record of id `n` the store is unchanged.
Such a path is valid UTF-8, so the request served through the route returns. -/
theorem upgradeDevice_sets_firmware (L : Lib) (e : Env) (r : Request) (s : State) (n : Int)
    (d : Device) (ha : Atoi (TrimPrefix r.Path (bytes "/devices/")) = some n) (hn : 1 ≤ n)
    (hd : L.decode r.Body = .ok d) :
    upgradeDevice L e newResponseWriter r s =
        .returned { devices := s.devices.map (setFirmware n d.Firmware),
                    metrics := s.metrics.incUpgrades "router" }
          ⟨[], true, 202, "Device upgraded."⟩ ∧
      (s.devices.map (setFirmware n d.Firmware)).length = s.devices.length ∧
      (∀ (i : Nat) (x : Device), s.devices[i]? = some x →
        ∃ y, (s.devices.map (setFirmware n d.Firmware))[i]? = some y ∧
          y.ID = x.ID ∧ y.Mac = x.Mac ∧
          (x.ID = n → y.Firmware = d.Firmware) ∧ (x.ID ≠ n → y = x)) ∧
      ((∀ x ∈ s.devices, x.ID ≠ n) → s.devices.map (setFirmware n d.Firmware) = s.devices) ∧
      (∀ (L2 : Lib) (r2 : Request) (d2 : Device),
        Atoi (TrimPrefix r2.Path (bytes "/devices/")) = some n → L2.decode r2.Body = .ok d2 →
        d2.Firmware = d.Firmware →
        upgradeDevice L2 e newResponseWriter r2 s = upgradeDevice L e newResponseWriter r s) ∧
      (r.Method = "PUT" →
        ∃ s1 w1, serve L (.device, e, r) s = .returned s1 w1 ∧
          s1.devices = s.devices.map (setFirmware n d.Firmware) ∧ w1.status = 202) := by
  have hc := upgradeDevice_ok L e r s n d ha hn hd
  refine ⟨hc, by simp, ?_, ?_, ?_, ?_⟩
  · intro i x hx
    refine ⟨setFirmware n d.Firmware x, by simp [hx], ?_⟩
    unfold setFirmware
    by_cases hid : x.ID = n
    · simp [hid]
    · simp [hid]
  · intro hno
    have hmap : ∀ x ∈ s.devices, setFirmware n d.Firmware x = x := by
      intro x hx
      unfold setFirmware
      rw [if_neg (hno x hx)]
    rw [List.map_congr_left hmap, List.map_id']
  · intro L2 r2 d2 ha2 hd2 hf
    rw [upgradeDevice_ok L2 e r2 s n d2 ha2 hn hd2, hc, hf]
  · intro hp
    have hr : routeHandler L e .device newResponseWriter r s = _ :=
      (upgradeDeviceHandler_PUT L e newResponseWriter r s hp).trans hc
    exact ⟨_, _, (serve_of_returned L .device e r s _ _ hr).1 (path_valid_of_Atoi _ n ha),
      rfl, rfl⟩

/-- C2 at the scenario of the spec: `PUT /devices/1` with firmware 2.0.0 on the seeded
store answers 202 and only device 1 changes. -/
theorem upgradeDevice_sets_firmware_witness :
    (upgradeDevice exampleLib ⟨0, 0⟩ newResponseWriter
        ⟨"PUT", bytes "/devices/1", "\x7b\"firmware\":\"2.0.0\"\x7d"⟩ main).state.devices =
        [⟨1, "AA:BB:CC:DD:EE:01", "2.0.0"⟩, ⟨2, "AA:BB:CC:DD:EE:02", "1.0.0"⟩] ∧
      (upgradeDevice exampleLib ⟨0, 0⟩ newResponseWriter
        ⟨"PUT", bytes "/devices/1", "\x7b\"firmware\":\"2.0.0\"\x7d"⟩ main).writer.status =
        202 := by
  rw [(upgradeDevice_sets_firmware exampleLib ⟨0, 0⟩
    ⟨"PUT", bytes "/devices/1", "\x7b\"firmware\":\"2.0.0\"\x7d"⟩ main 1 ⟨0, "", "2.0.0"⟩
    (by decide) (by decide) rfl).1]
  exact ⟨by decide, rfl⟩

/-- C3: for every request whose path segment after `/devices/` does not parse with
`Atoi` or parses to an integer below one, whatever its body, `upgradeDevice` responds
404 and returns the state it was given; served through the route the store is
unchanged and the status is 404, and the request returns whenever its path is valid
UTF-8. The empty segment, a non-numeric one and one out of the range of `int` do not
parse. -/
theorem upgradeDevice_not_found (L : Lib) (e : Env) (r : Request) (s : State)
    (h : Atoi (TrimPrefix r.Path (bytes "/devices/")) = none ∨
      ∃ id, Atoi (TrimPrefix r.Path (bytes "/devices/")) = some id ∧ id < 1) :
    upgradeDevice L e newResponseWriter r s =
        .returned s ⟨[("Content-Type", "text/plain; charset=utf-8"),
          ("X-Content-Type-Options", "nosniff")], true, 404, "404 page not found\n"⟩ ∧
      (r.Method = "PUT" →
        (serve L (.device, e, r) s).state.devices = s.devices ∧
          (serve L (.device, e, r) s).writer.status = 404 ∧
          (utf8Valid r.Path = true →
            ∃ s1 w1, serve L (.device, e, r) s = .returned s1 w1 ∧
              s1.devices = s.devices ∧ w1.status = 404)) ∧
      Atoi (bytes "") = none ∧ Atoi (bytes "abc") = none ∧
      Atoi (bytes "9223372036854775808") = none ∧
      Atoi (bytes "0") = some 0 ∧ Atoi (bytes "-3") = some (-3) := by
  have hc : upgradeDevice L e newResponseWriter r s =
      .returned s ⟨[("Content-Type", "text/plain; charset=utf-8"),
        ("X-Content-Type-Options", "nosniff")], true, 404, "404 page not found\n"⟩ := by
    rcases h with h | ⟨id, h, hlt⟩
    · exact (upgradeDevice_no_id L e _ r s h).trans (by rw [NotFound_new])
    · exact (upgradeDevice_low_id L e _ r s id h hlt).trans (by rw [NotFound_new])
  refine ⟨hc, ?_, by decide, by decide, by decide, by decide, by decide⟩
  intro hp
  have hr : routeHandler L e .device newResponseWriter r s = _ :=
    (upgradeDeviceHandler_PUT L e newResponseWriter r s hp).trans hc
  obtain ⟨h1, _, h3, h4, _⟩ := serve_of_returned L .device e r s _ _ hr
  refine ⟨h4, by rw [h3], ?_⟩
  intro hv
  exact ⟨_, _, h1 hv, rfl, rfl⟩

/-- C3 at the scenario of the spec: `PUT /devices/abc` answers 404 and the seeded store
is as it was. -/
theorem upgradeDevice_not_found_witness :
    (upgradeDevice exampleLib ⟨0, 0⟩ newResponseWriter
        ⟨"PUT", bytes "/devices/abc", "\x7b\"firmware\":\"2.0.0\"\x7d"⟩ main).state.devices =
        init ∧
      (upgradeDevice exampleLib ⟨0, 0⟩ newResponseWriter
        ⟨"PUT", bytes "/devices/abc", "\x7b\"firmware\":\"2.0.0\"\x7d"⟩ main).writer.status =
        404 := by
  rw [(upgradeDevice_not_found exampleLib ⟨0, 0⟩
    ⟨"PUT", bytes "/devices/abc", "\x7b\"firmware\":\"2.0.0\"\x7d"⟩ main
    (Or.inl (by decide))).1]
  exact ⟨rfl, rfl⟩

/-- C4 (as amended): for every request whose body the decoder rejects, `createDevices`
responds 400 and returns the state it was given; `upgradeDevice` does so when the path
id parses to an integer of at least one; when the path id does not parse or is below
one it answers 404 instead, and in every case it returns the state it was given. -/
theorem malformed_body_rejected (L : Lib) (e : Env) (r : Request) (s : State) (err : String)
    (hd : L.decode r.Body = .error err) :
    createDevices L newResponseWriter r s =
        .returned s ⟨[("Content-Type", "text/plain; charset=utf-8"),
          ("X-Content-Type-Options", "nosniff")], true, 400, err ++ "\n"⟩ ∧
      (∀ n : Int, Atoi (TrimPrefix r.Path (bytes "/devices/")) = some n → 1 ≤ n →
        upgradeDevice L e newResponseWriter r s =
          .returned s ⟨[("Content-Type", "text/plain; charset=utf-8"),
            ("X-Content-Type-Options", "nosniff")], true, 400, err ++ "\n"⟩) ∧
      (∃ w1, upgradeDevice L e newResponseWriter r s = .returned s w1 ∧
        (w1.status = 400 ∨ w1.status = 404) ∧
        ((Atoi (TrimPrefix r.Path (bytes "/devices/")) = none ∨
          ∃ id, Atoi (TrimPrefix r.Path (bytes "/devices/")) = some id ∧ id < 1) →
          w1.status = 404)) ∧
      (r.Method = "POST" →
        (serve L (.devices, e, r) s).state.devices = s.devices ∧
          (serve L (.devices, e, r) s).writer.status = 400 ∧
          (utf8Valid r.Path = true →
            ∃ s1 w1, serve L (.devices, e, r) s = .returned s1 w1 ∧
              s1.devices = s.devices ∧ w1.status = 400)) ∧
      (r.Method = "PUT" →
        (serve L (.device, e, r) s).state.devices = s.devices ∧
          ((serve L (.device, e, r) s).writer.status = 400 ∨
            (serve L (.device, e, r) s).writer.status = 404) ∧
          (∀ n : Int, Atoi (TrimPrefix r.Path (bytes "/devices/")) = some n → 1 ≤ n →
            ∃ s1 w1, serve L (.device, e, r) s = .returned s1 w1 ∧
              s1.devices = s.devices ∧ w1.status = 400)) := by
  have hc : createDevices L newResponseWriter r s =
      .returned s ⟨[("Content-Type", "text/plain; charset=utf-8"),
        ("X-Content-Type-Options", "nosniff")], true, 400, err ++ "\n"⟩ :=
    (createDevices_error L r s err hd).trans (by rw [Error_new])
  have hu : ∀ n : Int, Atoi (TrimPrefix r.Path (bytes "/devices/")) = some n → 1 ≤ n →
      upgradeDevice L e newResponseWriter r s =
        .returned s ⟨[("Content-Type", "text/plain; charset=utf-8"),
          ("X-Content-Type-Options", "nosniff")], true, 400, err ++ "\n"⟩ := by
    intro n ha hn
    exact (upgradeDevice_error L e _ r s n err ha hn hd).trans (by rw [Error_new])
  have hall : ∃ w1, upgradeDevice L e newResponseWriter r s = .returned s w1 ∧
      (w1.status = 400 ∨ w1.status = 404) ∧
      ((Atoi (TrimPrefix r.Path (bytes "/devices/")) = none ∨
        ∃ id, Atoi (TrimPrefix r.Path (bytes "/devices/")) = some id ∧ id < 1) →
        w1.status = 404) ∧
      (∀ n : Int, Atoi (TrimPrefix r.Path (bytes "/devices/")) = some n → 1 ≤ n →
        w1.status = 400) := by
    cases ha : Atoi (TrimPrefix r.Path (bytes "/devices/")) with
    | none =>
      refine ⟨_, (upgradeDevice_no_id L e _ r s ha).trans (by rw [NotFound_new]),
        Or.inr rfl, fun _ => rfl, ?_⟩
      intro n hn
      cases hn
    | some id =>
      by_cases hlt : id < 1
      · refine ⟨_, (upgradeDevice_low_id L e _ r s id ha hlt).trans (by rw [NotFound_new]),
          Or.inr rfl, fun _ => rfl, ?_⟩
        intro n hn h1
        cases hn
        omega
      · refine ⟨_, hu id ha (by omega), Or.inl rfl, ?_, fun _ _ _ => rfl⟩
        rintro (hbad | ⟨id2, hid2, hlt2⟩)
        · cases hbad
        · cases hid2
          exact absurd hlt2 hlt
  refine ⟨hc, hu, ?_, ?_, ?_⟩
  · obtain ⟨w1, h1, h2, h3, _⟩ := hall
    exact ⟨w1, h1, h2, h3⟩
  · intro hp
    have hr : routeHandler L e .devices newResponseWriter r s = _ :=
      (registerDeviceHandler_POST L e newResponseWriter r s hp).trans hc
    obtain ⟨h1, _, h3, h4, _⟩ := serve_of_returned L .devices e r s _ _ hr
    refine ⟨h4, by rw [h3], ?_⟩
    intro hv
    exact ⟨_, _, h1 hv, rfl, rfl⟩
  · intro hp
    obtain ⟨w1, hw, h2, _, h5⟩ := hall
    have hr : routeHandler L e .device newResponseWriter r s = _ :=
      (upgradeDeviceHandler_PUT L e newResponseWriter r s hp).trans hw
    obtain ⟨h1, _, h3, h4, _⟩ := serve_of_returned L .device e r s _ _ hr
    refine ⟨h4, by rw [h3]; exact h2, ?_⟩
    intro n ha hn
    exact ⟨_, _, h1 (path_valid_of_Atoi _ n ha), rfl, h5 n ha hn⟩

/-- C4 (as amended) at a concrete request: a truncated body on `PUT /devices/1` answers
400 and the seeded store is as it was. -/
theorem malformed_body_rejected_witness :
    (upgradeDevice exampleLib ⟨0, 0⟩ newResponseWriter
        ⟨"PUT", bytes "/devices/1", "\x7b"⟩ main).state.devices = init ∧
      (upgradeDevice exampleLib ⟨0, 0⟩ newResponseWriter
        ⟨"PUT", bytes "/devices/1", "\x7b"⟩ main).writer.status = 400 := by
  rw [(malformed_body_rejected exampleLib ⟨0, 0⟩ ⟨"PUT", bytes "/devices/1", "\x7b"⟩ main
    "unexpected EOF" rfl).2.1 1 (by decide) (by decide)]
  exact ⟨rfl, rfl⟩

/-- C4 as stated fails: on `PUT /devices/abc` with a body the decoder rejects the
response is 404, not 400. -/
theorem malformed_body_bad_id_counterexample :
    (exampleLib.decode "\x7b").toOption = none ∧
      (upgradeDevice exampleLib ⟨0, 0⟩ newResponseWriter
        ⟨"PUT", bytes "/devices/abc", "\x7b"⟩ main).writer.status = 404 ∧
      (upgradeDevice exampleLib ⟨0, 0⟩ newResponseWriter
        ⟨"PUT", bytes "/devices/abc", "\x7b"⟩ main).returns = true ∧
      (404 : Nat) ≠ 400 := by
  decide

/-- An unsupported method on either device route answers 405 and returns the state it
was given; on `/devices` the header `Allow` lists `GET, POST`, on `/devices/{id}` the
handler sets a header named `Only Allow` and no header `Allow`. -/
theorem method_not_allowed (L : Lib) (e : Env) (r : Request) (s : State) :
    (r.Method ≠ "GET" → r.Method ≠ "POST" →
      ∃ w1, registerDeviceHandler L e newResponseWriter r s = .returned s w1 ∧
        w1.status = 405 ∧ headerGet w1.header "Allow" = "GET, POST") ∧
      (r.Method ≠ "PUT" →
        ∃ w1, upgradeDeviceHandler L e newResponseWriter r s = .returned s w1 ∧
          w1.status = 405 ∧ headerGet w1.header "Allow" = "" ∧
          headerLookup w1.header "Allow" = none ∧
          headerLookup w1.header "Only Allow" = some "PUT") := by
  constructor
  · intro hg hp
    exact ⟨_, registerDeviceHandler_other L e r s hg hp, rfl, by decide⟩
  · intro hp
    exact ⟨_, upgradeDeviceHandler_other L e r s hp, rfl, by decide, by decide, by decide⟩

/-- C5 at `DELETE /devices/1` on the seeded store: the request returns with 405 and the
store is as it was, but no header `Allow` is set; the header the handler sets is named
`Only Allow`. On `DELETE /devices` the header `Allow` is `GET, POST`. -/
theorem upgradeDeviceHandler_allow_header_absent :
    ((serve exampleLib (.device, ⟨0, 0⟩, ⟨"DELETE", bytes "/devices/1", ""⟩) main).returns =
        true ∧
      (serve exampleLib (.device, ⟨0, 0⟩, ⟨"DELETE", bytes "/devices/1", ""⟩)
        main).state.devices = init ∧
      (serve exampleLib (.device, ⟨0, 0⟩, ⟨"DELETE", bytes "/devices/1", ""⟩)
        main).writer.status = 405 ∧
      headerGet (serve exampleLib (.device, ⟨0, 0⟩, ⟨"DELETE", bytes "/devices/1", ""⟩)
        main).writer.header "Allow" = "" ∧
      headerLookup (serve exampleLib (.device, ⟨0, 0⟩, ⟨"DELETE", bytes "/devices/1", ""⟩)
        main).writer.header "Allow" = none ∧
      (serve exampleLib (.device, ⟨0, 0⟩, ⟨"DELETE", bytes "/devices/1", ""⟩)
        main).writer.header =
        [("Only Allow", "PUT"), ("Content-Type", "text/plain; charset=utf-8"),
          ("X-Content-Type-Options", "nosniff")]) ∧
      ((serve exampleLib (.devices, ⟨0, 0⟩, ⟨"DELETE", bytes "/devices", ""⟩)
        main).writer.status = 405 ∧
      headerGet (serve exampleLib (.devices, ⟨0, 0⟩, ⟨"DELETE", bytes "/devices", ""⟩)
        main).writer.header "Allow" = "GET, POST") := by
  decide

/-- C6: for every store whose serialisation succeeds with `b` and every request whose
path is valid UTF-8, as `/devices` is, `getDevices` responds 200 with body `b`, the
serialisation of the whole store as it stands, returns the store unchanged and adds
exactly one observation to the histogram, labelled with status `200` and the method
and path of the request; no other metric changes. On a path that is not valid UTF-8
the label lookup of the histogram panics before anything is written. The store `main`
starts from holds the two seeded devices in order. -/
theorem getDevices_lists (L : Lib) (e : Env) (r : Request) (s : State) (b : String)
    (hm : L.marshal s.devices = .ok b) :
    (utf8Valid r.Path = true →
      getDevices L e newResponseWriter r s =
        .returned { devices := s.devices,
                    metrics := { s.metrics with
                      duration := s.metrics.duration ++ [⟨"200", r.Method, r.Path⟩] } }
          ⟨[("Content-Type", "application/json")], true, 200, b⟩) ∧
      getDevices L e newResponseWriter ⟨r.Method, bytes "/devices", r.Body⟩ s =
        .returned { devices := s.devices,
                    metrics := { s.metrics with
                      duration := s.metrics.duration ++
                        [⟨"200", r.Method, bytes "/devices"⟩] } }
          ⟨[("Content-Type", "application/json")], true, 200, b⟩ ∧
      (utf8Valid r.Path = false →
        getDevices L e newResponseWriter r s = .panicked s newResponseWriter) ∧
      main.devices = [⟨1, "AA:BB:CC:DD:EE:01", "1.0.0"⟩, ⟨2, "AA:BB:CC:DD:EE:02", "1.0.0"⟩] ∧
      (r.Method = "GET" → utf8Valid r.Path = true →
        ∃ s1 w1, serve L (.devices, e, r) s = .returned s1 w1 ∧ s1.devices = s.devices ∧
          w1.status = 200 ∧ w1.body = b ∧
          s1.metrics.duration = s.metrics.duration ++ [⟨"200", r.Method, r.Path⟩] ∧
          s1.metrics.devices = s.metrics.devices ∧ s1.metrics.upgrades = s.metrics.upgrades ∧
          s1.metrics.info = s.metrics.info) := by
  refine ⟨fun hv => getDevices_ok L e r s b hm hv,
    getDevices_ok L e ⟨r.Method, bytes "/devices", r.Body⟩ s b hm
      (show utf8Valid (bytes "/devices") = true by decide),
    fun hv => getDevices_invalid L e _ r s b hm hv, rfl, ?_⟩
  intro hg hv
  have hr : routeHandler L e .devices newResponseWriter r s = _ :=
    (registerDeviceHandler_GET L e newResponseWriter r s hg).trans
      (getDevices_ok L e r s b hm hv)
  exact ⟨_, _, (serve_of_returned L .devices e r s _ _ hr).1 hv, rfl, rfl, rfl, rfl, rfl,
    rfl, rfl⟩

/-- C6 at the scenario of the spec: `GET /devices` on the seeded store answers 200 with
both devices in order and records one observation. -/
theorem getDevices_lists_witness :
    (getDevices exampleLib ⟨0, 0⟩ newResponseWriter ⟨"GET", bytes "/devices", ""⟩
        main).state.devices = init ∧
      (getDevices exampleLib ⟨0, 0⟩ newResponseWriter ⟨"GET", bytes "/devices", ""⟩
        main).state.metrics.duration = [⟨"200", "GET", bytes "/devices"⟩] ∧
      (getDevices exampleLib ⟨0, 0⟩ newResponseWriter ⟨"GET", bytes "/devices", ""⟩
        main).writer =
        ⟨[("Content-Type", "application/json")], true, 200,
          "[\x7b\"id\":1,\"mac\":\"AA:BB:CC:DD:EE:01\",\"firmware\":\"1.0.0\"\x7d," ++
            "\x7b\"id\":2,\"mac\":\"AA:BB:CC:DD:EE:02\",\"firmware\":\"1.0.0\"\x7d]"⟩ := by
  rw [(getDevices_lists exampleLib ⟨0, 0⟩ ⟨"GET", bytes "/devices", ""⟩ main
    ("[\x7b\"id\":1,\"mac\":\"AA:BB:CC:DD:EE:01\",\"firmware\":\"1.0.0\"\x7d," ++
      "\x7b\"id\":2,\"mac\":\"AA:BB:CC:DD:EE:02\",\"firmware\":\"1.0.0\"\x7d]")
    (congrArg Except.ok (by decide))).1 (by decide)]
  exact ⟨rfl, rfl, rfl⟩

/-- One served request never shrinks the store and keeps the gauge equal to the store
size when it was so before, whether it returns or panics; it returns when its path is
valid UTF-8. -/
theorem serve_step (L : Lib) (q : Route × Env × Request) (s : State) :
    s.devices.length ≤ (serve L q s).state.devices.length ∧
      (s.metrics.devices = s.devices.length →
        (serve L q s).state.metrics.devices = (serve L q s).state.devices.length) ∧
      (utf8Valid q.2.2.Path = true →
        ∃ s1 w1, serve L q s = .returned s1 w1 ∧ s.devices.length ≤ s1.devices.length ∧
          (s.metrics.devices = s.devices.length → s1.metrics.devices = s1.devices.length)) := by
  obtain ⟨route, e, r⟩ := q
  have key : ∃ o, routeHandler L e route newResponseWriter r s = o ∧
      (serve L (route, e, r) s).state.devices = o.state.devices ∧
      (serve L (route, e, r) s).state.metrics.devices = o.state.metrics.devices ∧
      (utf8Valid r.Path = true →
        ∃ s1 w1, serve L (route, e, r) s = .returned s1 w1 ∧
          s1.devices = o.state.devices ∧ s1.metrics.devices = o.state.metrics.devices) ∧
      s.devices.length ≤ o.state.devices.length ∧
      (s.metrics.devices = s.devices.length →
        o.state.metrics.devices = o.state.devices.length) := by
    obtain ⟨_, hcase⟩ := routeHandler_outcome L e route r s
    rcases hcase with ⟨w1, h, _⟩ | ⟨_, _, _, w1, _, h⟩ | ⟨_, _, hv, h⟩ |
      ⟨d, _, _, _, w1, _, h⟩ | ⟨id, d, _, _, _, _, _, w1, _, h⟩
    · obtain ⟨h1, _, _, h4, h5, _⟩ := serve_of_returned L route e r s _ _ h
      exact ⟨_, h, h4, h5, fun hv => ⟨_, _, h1 hv, rfl, rfl⟩, le_refl _, fun hi => hi⟩
    · obtain ⟨h1, _, _, h4, h5, _⟩ := serve_of_returned L route e r s _ _ h
      exact ⟨_, h, h4, h5, fun hv => ⟨_, _, h1 hv, rfl, rfl⟩, le_refl _, fun hi => hi⟩
    · have hs := serve_of_panicked L route e r s _ _ h
      refine ⟨_, h, by rw [hs], by rw [hs], ?_, le_refl _, fun hi => hi⟩
      intro hv2
      rw [hv] at hv2
      cases hv2
    · obtain ⟨h1, _, _, h4, h5, _⟩ := serve_of_returned L route e r s _ _ h
      refine ⟨_, h, h4, h5, fun hv => ⟨_, _, h1 hv, rfl, rfl⟩, ?_, fun _ => rfl⟩
      show s.devices.length ≤ (s.devices ++ [d]).length
      simp
    · obtain ⟨h1, _, _, h4, h5, _⟩ := serve_of_returned L route e r s _ _ h
      refine ⟨_, h, h4, h5, fun hv => ⟨_, _, h1 hv, rfl, rfl⟩, ?_, ?_⟩
      · show s.devices.length ≤ (s.devices.map (setFirmware id d.Firmware)).length
        simp
      · intro hi
        show s.metrics.devices = (s.devices.map (setFirmware id d.Firmware)).length
        simpa using hi
  obtain ⟨o, _, hd, hm, hret, hle, hinv⟩ := key
  refine ⟨by rw [hd]; exact hle, fun hi => by rw [hd, hm]; exact hinv hi, ?_⟩
  intro hv
  obtain ⟨s1, w1, hs, h1, h2⟩ := hret hv
  exact ⟨s1, w1, hs, by rw [h1]; exact hle, fun hi => by rw [h1, h2]; exact hinv hi⟩

/-- Any sequence of served requests never shrinks the store and keeps the gauge equal
to the store size. -/
theorem run_keeps_count (L : Lib) (qs : List (Route × Env × Request)) :
    ∀ s : State, s.metrics.devices = s.devices.length →
      s.devices.length ≤ (run L qs s).devices.length ∧
        (run L qs s).metrics.devices = (run L qs s).devices.length := by
  induction qs with
  | nil =>
    intro s hs
    exact ⟨le_refl _, hs⟩
  | cons q qs ih =>
    intro s hs
    obtain ⟨hle, hinv, _⟩ := serve_step L q s
    obtain ⟨hle2, hinv2⟩ := ih (serve L q s).state (hinv hs)
    exact ⟨le_trans hle hle2, hinv2⟩

/-- C7: from the state `main` builds (two seeded devices, gauge set to the store size),
every sequence of requests served one after the other on the device routes, on any
paths, leaves a state where the gauge `device_count` equals the number of records and
the store has at least two records; from there every further request leaves the store
no smaller and the gauge equal to its size, returning when its path is valid UTF-8,
and so does every further sequence of requests. -/
theorem device_count_invariant (L : Lib) (qs : List (Route × Env × Request)) :
    (run L qs main).metrics.devices = (run L qs main).devices.length ∧
      2 ≤ (run L qs main).devices.length ∧
      (∀ q, (run L qs main).devices.length ≤ (serve L q (run L qs main)).state.devices.length ∧
        (serve L q (run L qs main)).state.metrics.devices =
          (serve L q (run L qs main)).state.devices.length ∧
        (utf8Valid q.2.2.Path = true →
          ∃ s1 w1, serve L q (run L qs main) = .returned s1 w1 ∧
            (run L qs main).devices.length ≤ s1.devices.length ∧
            s1.metrics.devices = s1.devices.length)) ∧
      (∀ more, (run L qs main).devices.length ≤ (run L more (run L qs main)).devices.length ∧
        (run L more (run L qs main)).metrics.devices =
          (run L more (run L qs main)).devices.length) := by
  obtain ⟨hle, hinv⟩ := run_keeps_count L qs main rfl
  refine ⟨hinv, hle, ?_, ?_⟩
  · intro q
    obtain ⟨h1, h2, h3⟩ := serve_step L q (run L qs main)
    refine ⟨h1, h2 hinv, ?_⟩
    intro hv
    obtain ⟨s1, w1, hs, hl, hi⟩ := h3 hv
    exact ⟨s1, w1, hs, hl, hi hinv⟩
  · intro more
    exact run_keeps_count L more (run L qs main) hinv

/-- C8 (as amended): for every request on either device route the inner handler sets no
header `statusCode`. When the path of the request is valid UTF-8 the inner handler
returns and the wrapped handler returns the same response and the same state with
exactly one observation added to the summary, labelled with the empty status and the
method and path of the request. When the path is not valid UTF-8 the wrapped handler
panics on the state and the writer the inner handler left and the summary is as it was
before the request. `middleware` does this to any handler: one observation after a
handler that returned on a valid path, a panic and no observation after a handler that
returned on an invalid path or that panicked. -/
theorem middleware_observes (L : Lib) (route : Route) (e : Env) (r : Request) (s : State) :
    headerGet (routeHandler L e route newResponseWriter r s).writer.header "statusCode" = "" ∧
      (utf8Valid r.Path = true →
        ∃ s1 w1, routeHandler L e route newResponseWriter r s = .returned s1 w1 ∧
          headerGet w1.header "statusCode" = "" ∧
          s1.metrics.durationSumy = s.metrics.durationSumy ∧
          serve L (route, e, r) s =
            .returned { devices := s1.devices,
                        metrics := { s1.metrics with
                          durationSumy := s1.metrics.durationSumy ++
                            [⟨"", r.Method, r.Path⟩] } } w1) ∧
      (utf8Valid r.Path = false →
        serve L (route, e, r) s =
            .panicked (routeHandler L e route newResponseWriter r s).state
              (routeHandler L e route newResponseWriter r s).writer ∧
          (serve L (route, e, r) s).state.metrics.durationSumy = s.metrics.durationSumy) ∧
      (∀ (next : ResponseWriter → Request → State → Outcome)
        (w : ResponseWriter) (s1 : State) (w1 : ResponseWriter),
        (next w r s = .returned s1 w1 → utf8Valid r.Path = true →
          middleware next w r s =
            .returned { devices := s1.devices,
                        metrics := { s1.metrics with
                          durationSumy := s1.metrics.durationSumy ++
                            [⟨headerGet w1.header "statusCode", r.Method, r.Path⟩] } } w1) ∧
        (next w r s = .returned s1 w1 → utf8Valid r.Path = false →
          middleware next w r s = .panicked s1 w1) ∧
        (next w r s = .panicked s1 w1 → middleware next w r s = .panicked s1 w1)) := by
  obtain ⟨hh, hcase⟩ := routeHandler_outcome L e route r s
  have key : (∃ s1 w1, routeHandler L e route newResponseWriter r s = .returned s1 w1 ∧
        s1.metrics.durationSumy = s.metrics.durationSumy) ∨
      (utf8Valid r.Path = false ∧
        routeHandler L e route newResponseWriter r s = .panicked s newResponseWriter) := by
    rcases hcase with ⟨w1, h, _⟩ | ⟨_, _, _, w1, _, h⟩ | ⟨_, _, hv, h⟩ |
      ⟨d, _, _, _, w1, _, h⟩ | ⟨id, d, _, _, _, _, _, w1, _, h⟩
    · exact Or.inl ⟨_, _, h, rfl⟩
    · exact Or.inl ⟨_, _, h, rfl⟩
    · exact Or.inr ⟨hv, h⟩
    · exact Or.inl ⟨_, _, h, rfl⟩
    · exact Or.inl ⟨_, _, h, rfl⟩
  refine ⟨hh, ?_, ?_, ?_⟩
  · intro hv
    rcases key with ⟨s1, w1, h, hs⟩ | ⟨hv2, _⟩
    · rw [h] at hh
      have hh2 : headerGet w1.header "statusCode" = "" := hh
      refine ⟨s1, w1, h, hh2, hs, ?_⟩
      rw [(serve_of_returned L route e r s s1 w1 h).1 hv, hh2]
    · rw [hv] at hv2
      cases hv2
  · intro hv
    rcases key with ⟨s1, w1, h, hs⟩ | ⟨_, h⟩
    · rw [(serve_of_returned L route e r s s1 w1 h).2.1 hv, h]
      exact ⟨rfl, hs⟩
    · rw [serve_of_panicked L route e r s _ _ h, h]
      exact ⟨rfl, rfl⟩
  · intro next w s1 w1
    exact ⟨fun h hv => middleware_returned next w r s s1 w1 h hv,
      fun h hv => middleware_invalid next w r s s1 w1 h hv,
      fun h => middleware_panicked next w r s s1 w1 h⟩

/-- C8 (as amended) at two requests on the seeded store: `DELETE /devices/é` returns
with 405 and one summary observation of empty status; `PUT /devices/abc` returns with
404 and one summary observation of empty status. -/
theorem middleware_observes_witness :
    utf8Valid (bytes "/devices/é") = true ∧
      (serve exampleLib (.device, ⟨0, 0⟩, ⟨"DELETE", bytes "/devices/é", ""⟩) main).returns =
        true ∧
      (serve exampleLib (.device, ⟨0, 0⟩, ⟨"DELETE", bytes "/devices/é", ""⟩)
        main).writer.status = 405 ∧
      (serve exampleLib (.device, ⟨0, 0⟩, ⟨"DELETE", bytes "/devices/é", ""⟩)
        main).state.metrics.durationSumy = [⟨"", "DELETE", bytes "/devices/é"⟩] ∧
      (serve exampleLib (.device, ⟨0, 0⟩, ⟨"PUT", bytes "/devices/abc", ""⟩)
        main).state.metrics.durationSumy = [⟨"", "PUT", bytes "/devices/abc"⟩] := by
  obtain ⟨s1, w1, h1, _, h2, h3⟩ := (middleware_observes exampleLib .device ⟨0, 0⟩
    ⟨"DELETE", bytes "/devices/é", ""⟩ main).2.1 (by decide)
  obtain ⟨s2, w2, _, _, h5, h6⟩ := (middleware_observes exampleLib .device ⟨0, 0⟩
    ⟨"PUT", bytes "/devices/abc", ""⟩ main).2.1 (by decide)
  rw [h3, h6]
  have hw : w1.status = 405 := by
    have h7 : (routeHandler exampleLib ⟨0, 0⟩ .device newResponseWriter
      ⟨"DELETE", bytes "/devices/é", ""⟩ main).writer.status = 405 := by decide
    rw [h1] at h7
    exact h7
  refine ⟨by decide, rfl, hw, ?_, ?_⟩
  · show s1.metrics.durationSumy ++ [_] = _
    rw [h2]
    rfl
  · show s2.metrics.durationSumy ++ [_] = _
    rw [h5]
    rfl

/-- C8 as stated fails: on `PUT /devices/%ff` the path is `/devices/` followed by the
byte `0xff`, which is not valid UTF-8; the inner handler returns with 404 and no header
`statusCode`, then the label lookup of the summary panics: the wrapped handler does not
return and the summary holds no observation, not one. -/
theorem middleware_invalid_path_counterexample :
    utf8Valid (bytes "/devices/" ++ [0xff]) = false ∧
      (routeHandler exampleLib ⟨0, 0⟩ .device newResponseWriter
        ⟨"PUT", bytes "/devices/" ++ [0xff], ""⟩ main).returns = true ∧
      (routeHandler exampleLib ⟨0, 0⟩ .device newResponseWriter
        ⟨"PUT", bytes "/devices/" ++ [0xff], ""⟩ main).writer.status = 404 ∧
      (serve exampleLib (.device, ⟨0, 0⟩, ⟨"PUT", bytes "/devices/" ++ [0xff], ""⟩)
        main).returns = false ∧
      (serve exampleLib (.device, ⟨0, 0⟩, ⟨"PUT", bytes "/devices/" ++ [0xff], ""⟩)
        main).state.metrics.durationSumy = [] ∧
      (serve exampleLib (.device, ⟨0, 0⟩, ⟨"PUT", bytes "/devices/" ++ [0xff], ""⟩)
        main).state.metrics.durationSumy.length ≠ 1 := by
  decide

/-- C9: the response of a request served on a device route is 202 exactly when it is a
`PUT` on `/devices/{id}` whose path id parses to an integer of at least one and whose
body decodes, and such a request returns; when the response is 202 the counter
`device_upgrades_total` of type `router` is one larger and every other series of the
counter is as it was, whether or not a stored device has that id; when the response is
not 202 no series of the counter changes, whether the request returns or panics; every
request whose path is valid UTF-8 returns. -/
theorem upgrades_counter (L : Lib) (route : Route) (e : Env) (r : Request) (s : State) :
    ((serve L (route, e, r) s).writer.status = 202 ↔
        (route = .device ∧ r.Method = "PUT" ∧
          ∃ (n : Int) (d : Device),
            Atoi (TrimPrefix r.Path (bytes "/devices/")) = some n ∧ 1 ≤ n ∧
            L.decode r.Body = .ok d)) ∧
      ((serve L (route, e, r) s).writer.status = 202 →
        (serve L (route, e, r) s).returns = true ∧
        (serve L (route, e, r) s).state.metrics.upgrades "router" =
          s.metrics.upgrades "router" + 1 ∧
          ∀ t, t ≠ "router" →
            (serve L (route, e, r) s).state.metrics.upgrades t = s.metrics.upgrades t) ∧
      ((serve L (route, e, r) s).writer.status ≠ 202 →
        (serve L (route, e, r) s).state.metrics.upgrades = s.metrics.upgrades) ∧
      (utf8Valid r.Path = true →
        ∃ s1 w1, serve L (route, e, r) s = .returned s1 w1 ∧
          (w1.status = 202 →
            s1.metrics.upgrades "router" = s.metrics.upgrades "router" + 1) ∧
          (w1.status ≠ 202 → s1.metrics.upgrades = s.metrics.upgrades)) := by
  have key : ∃ o, routeHandler L e route newResponseWriter r s = o ∧
      (serve L (route, e, r) s).writer = o.writer ∧
      (serve L (route, e, r) s).state.metrics.upgrades = o.state.metrics.upgrades ∧
      (utf8Valid r.Path = true →
        ∃ s1 w1, serve L (route, e, r) s = .returned s1 w1 ∧ w1 = o.writer ∧
          s1.metrics.upgrades = o.state.metrics.upgrades) ∧
      ((o.writer.status ≠ 202 ∧ o.state.metrics.upgrades = s.metrics.upgrades ∧
          ¬ (route = .device ∧ r.Method = "PUT" ∧
            ∃ (n : Int) (d : Device),
              Atoi (TrimPrefix r.Path (bytes "/devices/")) = some n ∧ 1 ≤ n ∧
              L.decode r.Body = .ok d)) ∨
        (o.writer.status = 202 ∧ utf8Valid r.Path = true ∧
          o.state.metrics.upgrades = (s.metrics.incUpgrades "router").upgrades ∧
          (route = .device ∧ r.Method = "PUT" ∧
            ∃ (n : Int) (d : Device),
              Atoi (TrimPrefix r.Path (bytes "/devices/")) = some n ∧ 1 ≤ n ∧
              L.decode r.Body = .ok d))) := by
    obtain ⟨_, hcase⟩ := routeHandler_outcome L e route r s
    rcases hcase with ⟨w1, h, hst⟩ | ⟨hr, _, _, w1, hst, h⟩ | ⟨hr, _, hv, h⟩ |
      ⟨d, hr, _, _, w1, hst, h⟩ | ⟨id, d, hr, hp, ha, hge, hd, w1, hst, h⟩
    · obtain ⟨h1, _, h3, _, _, h6, _⟩ := serve_of_returned L route e r s _ _ h
      refine ⟨_, h, h3, h6, fun hv => ⟨_, _, h1 hv, rfl, rfl⟩, Or.inl ⟨?_, rfl, ?_⟩⟩
      · show w1.status ≠ 202
        omega
      · rintro ⟨hr, hp, n, d, ha, hn, hd⟩
        subst hr
        have h2 : routeHandler L e .device newResponseWriter r s = _ :=
          (upgradeDeviceHandler_PUT L e newResponseWriter r s hp).trans
            (upgradeDevice_ok L e r s n d ha hn hd)
        rw [h2] at h
        injection h with _ hw
        rw [← hw] at hst
        revert hst
        decide
    · obtain ⟨h1, _, h3, _, _, h6, _⟩ := serve_of_returned L route e r s _ _ h
      refine ⟨_, h, h3, h6, fun hv => ⟨_, _, h1 hv, rfl, rfl⟩, Or.inl ⟨?_, rfl, ?_⟩⟩
      · show w1.status ≠ 202
        omega
      · rintro ⟨hr2, _⟩
        rw [hr] at hr2
        cases hr2
    · have hs := serve_of_panicked L route e r s _ _ h
      refine ⟨_, h, by rw [hs], by rw [hs], ?_, Or.inl ⟨(show newResponseWriter.status ≠ 202 by decide), rfl, ?_⟩⟩
      · intro hv2
        rw [hv] at hv2
        cases hv2
      · rintro ⟨hr2, _⟩
        rw [hr] at hr2
        cases hr2
    · obtain ⟨h1, _, h3, _, _, h6, _⟩ := serve_of_returned L route e r s _ _ h
      refine ⟨_, h, h3, h6, fun hv => ⟨_, _, h1 hv, rfl, rfl⟩, Or.inl ⟨?_, rfl, ?_⟩⟩
      · show w1.status ≠ 202
        omega
      · rintro ⟨hr2, _⟩
        rw [hr] at hr2
        cases hr2
    · obtain ⟨h1, _, h3, _, _, h6, _⟩ := serve_of_returned L route e r s _ _ h
      exact ⟨_, h, h3, h6, fun hv => ⟨_, _, h1 hv, rfl, rfl⟩,
        Or.inr ⟨hst, path_valid_of_Atoi _ id ha, rfl, hr, hp, id, d, ha, hge, hd⟩⟩
  obtain ⟨o, _, hw, hu, hret, hcase⟩ := key
  rw [hw, hu]
  have hinc : o.state.metrics.upgrades = (s.metrics.incUpgrades "router").upgrades →
      o.state.metrics.upgrades "router" = s.metrics.upgrades "router" + 1 ∧
        ∀ t, t ≠ "router" → o.state.metrics.upgrades t = s.metrics.upgrades t := by
    intro hi
    rw [hi]
    constructor
    · show (if ("router" : String) = "router" then s.metrics.upgrades "router" + 1
        else s.metrics.upgrades "router") = s.metrics.upgrades "router" + 1
      rw [if_pos rfl]
    · intro t ht
      show (if t = "router" then s.metrics.upgrades t + 1 else s.metrics.upgrades t) =
        s.metrics.upgrades t
      rw [if_neg ht]
  rcases hcase with ⟨hne, hsame, hnot⟩ | ⟨h202, hv, hi, hyes⟩
  · refine ⟨⟨fun h => absurd h hne, fun h => absurd h hnot⟩, fun h => absurd h hne,
      fun _ => hsame, ?_⟩
    intro hv
    obtain ⟨s1, w1, hs, hw1, hu1⟩ := hret hv
    refine ⟨s1, w1, hs, ?_, fun _ => hu1.trans hsame⟩
    intro h
    rw [hw1] at h
    exact absurd h hne
  · obtain ⟨s1, w1, hs, hw1, hu1⟩ := hret hv
    refine ⟨⟨fun _ => hyes, fun _ => h202⟩, fun _ => ⟨?_, hinc hi⟩,
      fun h => absurd h202 h, fun _ => ⟨s1, w1, hs, ?_, ?_⟩⟩
    · rw [hs]
      rfl
    · intro _
      rw [hu1]
      exact (hinc hi).1
    · intro h
      rw [hw1] at h
      exact absurd h202 h

/-- C10 (as amended): for `ms >= 1` and a second value in `0..59` whose sum with `ms`
does not overflow `int`, the bound handed to `rand.Intn` is `ms + sec`, it is positive,
`Intn` does not panic and the delay `n` it returns satisfies
`0 <= n < ms + sec <= ms + 59`, so that the duration slept is below `ms + 59`
milliseconds; the two calls of the program, with 200 and 1000, never panic, and a call
with 200 can sleep 258 ms. For an `int` `ms <= 0` with second value 0 the bound is not
positive and the call panics. -/
theorem sleep_bound (ms : Int) (sec : Fin 60) (draw : Nat) :
    (1 ≤ ms → ms + (sec.val : Int) ≤ maxInt →
      wrapInt (ms + (sec.val : Int)) = ms + (sec.val : Int) ∧ 0 < ms + (sec.val : Int) ∧
        ∃ n, Intn draw (wrapInt (ms + (sec.val : Int))) = some n ∧
          0 ≤ n ∧ n < ms + (sec.val : Int) ∧ ms + (sec.val : Int) ≤ ms + 59 ∧
          sleep ms sec draw = some (wrapInt (n * 1000000)) ∧
          wrapInt (n * 1000000) < (ms + 59) * 1000000) ∧
      (minInt ≤ ms → ms ≤ 0 → sec.val = 0 →
        wrapInt (ms + (sec.val : Int)) ≤ 0 ∧
          Intn draw (wrapInt (ms + (sec.val : Int))) = none ∧ sleep ms sec draw = none) ∧
      (∃ d, sleep 200 sec draw = some d) ∧ (∃ d, sleep 1000 sec draw = some d) ∧
      sleep 200 59 258 = some 258000000 := by
  have hsec := sec.isLt
  refine ⟨?_, ?_, sleep_200 ⟨sec, draw⟩, sleep_1000 ⟨sec, draw⟩, by decide⟩
  · intro h1 h2
    have hr : wrapInt (ms + (sec.val : Int)) = ms + (sec.val : Int) := by
      apply wrapInt_of_range _ _ h2
      unfold minInt
      omega
    have hpos : 0 < ms + (sec.val : Int) := by omega
    have hn0 : 0 ≤ (draw : Int) % (ms + (sec.val : Int)) := Int.emod_nonneg _ (by omega)
    have hn1 : (draw : Int) % (ms + (sec.val : Int)) < ms + (sec.val : Int) :=
      Int.emod_lt_of_pos _ hpos
    refine ⟨hr, hpos, (draw : Int) % (ms + (sec.val : Int)), ?_, hn0, hn1, by omega,
      sleep_some ms sec draw h1 h2, ?_⟩
    · rw [hr]
      unfold Intn
      rw [if_neg (by omega)]
    · generalize (draw : Int) % (ms + (sec.val : Int)) = n at hn0 hn1
      rw [wrapInt_eq_emod]
      unfold maxInt at h2
      omega
  · intro h1 h2 h3
    have hr : wrapInt (ms + (sec.val : Int)) = ms := by
      rw [h3]
      simp only [Nat.cast_zero, add_zero]
      apply wrapInt_of_range _ h1
      unfold maxInt
      omega
    refine ⟨by rw [hr]; exact h2, ?_, ?_⟩
    · rw [hr]
      unfold Intn
      rw [if_pos h2]
    · unfold sleep
      rw [hr]
      unfold Intn
      rw [if_pos h2]

/-- C10 (as amended) at the calls of the program: with 200 and second 59 the delay is
below 259 ms, and a call with 0 at second 0 panics. -/
theorem sleep_bound_witness :
    sleep 200 59 1000 = some 223000000 ∧ sleep 0 0 7 = none := by
  obtain ⟨_, _, n, h1, _, _, _, h2, _⟩ := (sleep_bound 200 59 1000).1 (by decide) (by decide)
  have h3 := ((sleep_bound 0 0 7).2.1 (by decide) (by decide) rfl).2.2
  exact ⟨by decide, h3⟩

/-- C10 as stated fails: with `ms` the largest `int` and second value 1 the sum wraps
to the smallest `int`, the bound is negative and the call panics. -/
theorem sleep_overflow_counterexample :
    1 ≤ maxInt ∧ wrapInt (maxInt + ((1 : Fin 60).val : Int)) = minInt ∧
      Intn 5 (wrapInt (maxInt + ((1 : Fin 60).val : Int))) = none ∧
      sleep maxInt 1 5 = none := by
  decide

end Main
